import Mathlib

/-!
Shallow embedding of the `tacit_decoder` trace-decoding pipeline:
the packet reader (`src/frontend/packet.rs`), the frontend decoder
(`src/frontend/decoder.rs`) and the stack unwinder
(`src/backend/stack_unwinder.rs`), together with theorems settling the
specification claims about them.

Machine integers (`u64`, `u8`) are modelled as `Nat`; every operation whose
result can exceed the 64-bit range in Rust is reduced `% 2^64` at that point.
The running `timestamp` of the decoder is the one exception: it is kept as an
exact natural number in the state and reduced `% 2^64` at the moment a value
is stored into an emitted event, which agrees with Rust's wrapping `u64`
addition because `%` distributes over `+`.
Byte streams are `List Nat`; fallible reads return `Except`.
-/

set_option maxRecDepth 4000

namespace Tacit

/-- Privilege levels, `Prv` in `src/common/prv.rs`. -/
inductive Prv where
  | PrvUser
  | PrvSupervisor
  | PrvHypervisor
  | PrvMachine
deriving DecidableEq, Repr

/-- `impl From<u64> for Prv` (src/common/prv.rs); any value other than 0–3
panics, modelled as `none`. -/
def Prv.fromVal : Nat → Option Prv
  | 0 => some .PrvUser
  | 1 => some .PrvSupervisor
  | 2 => some .PrvHypervisor
  | 3 => some .PrvMachine
  | _ => none

/-- Modelled from the spec: the compressed-header enum of the missing
`src/frontend/c_header.rs` (§6.1: `C_HEADER` 2 bits, `00=CNa`, `01=CTb`,
`10=CNt`, `11=CIj`). -/
inductive CHeader where
  | CNa
  | CTb
  | CNt
  | CIj
deriving DecidableEq, Repr

/-- Modelled from the spec: decoding of the 2-bit `C_HEADER` field.  The
argument is already masked with `C_HEADER_MASK = 0b11`, so values above 3
cannot occur. -/
def CHeader.fromVal : Nat → CHeader
  | 0 => .CNa
  | 1 => .CTb
  | 2 => .CNt
  | _ => .CIj

/-- Modelled from the spec: the family-header enum of the missing
`src/frontend/f_header.rs` (§6.1: `FTb=001, FNt=010, FUj=011, FIj=100,
FTrap=101, FSync=110` plus reserved codes).  `FRes1` is the reserved code
used by `Packet::new` as the initial value. -/
inductive FHeader where
  | FRes0
  | FTb
  | FNt
  | FUj
  | FIj
  | FTrap
  | FSync
  | FRes1
deriving DecidableEq, Repr

/-- Modelled from the spec: decoding of the 3-bit `F_HEADER` field; the two
reserved codes map to the reserved constructors, which `read_packet` then
rejects. -/
def FHeader.fromVal : Nat → FHeader
  | 1 => .FTb
  | 2 => .FNt
  | 3 => .FUj
  | 4 => .FIj
  | 5 => .FTrap
  | 6 => .FSync
  | 0 => .FRes0
  | _ => .FRes1

/-- Modelled from the spec: `FHeader::from(CHeader)` used for compressed
records (`CTb ↦ FTb`, `CNt ↦ FNt`, `CIj ↦ FIj`); never called with `CNa`. -/
def FHeader.fromC : CHeader → FHeader
  | .CTb => .FTb
  | .CNt => .FNt
  | .CIj => .FIj
  | .CNa => .FRes0

/-- Modelled from the spec: the trap-type enum of the missing
`src/frontend/trap_type.rs` (§6.1: `Exception=001, Interrupt=010,
Return=100`; `TNone` appears in `event.rs`). -/
inductive TrapType where
  | TNone
  | TException
  | TInterrupt
  | TReturn
deriving DecidableEq, Repr

/-- Modelled from the spec: decoding of the 3-bit trap sub-function; codes
other than 0, 1, 2, 4 panic, modelled as `none`. -/
def TrapType.fromVal : Nat → Option TrapType
  | 0 => some .TNone
  | 1 => some .TException
  | 2 => some .TInterrupt
  | 4 => some .TReturn
  | _ => none

/-- `SyncType` (src/frontend/sync_type.rs). -/
inductive SyncType where
  | SyncNone
  | SyncStart
  | SyncPeriodic
  | SyncEnd
deriving DecidableEq, Repr

/-- `impl From<u8> for SyncType` (src/frontend/sync_type.rs); codes other
than 0, 1, 2, 4 panic, modelled as `none`. -/
def SyncType.fromVal : Nat → Option SyncType
  | 0 => some .SyncNone
  | 1 => some .SyncStart
  | 2 => some .SyncPeriodic
  | 4 => some .SyncEnd
  | _ => none

/-- Modelled from the spec: the branch-mode enum of the missing
`src/frontend/br_mode.rs` (§6.1: `BrTarget=0, BrPredict=1`).  Other values
of the masked 2-bit field panic, modelled as `none`. -/
inductive BrMode where
  | BrTarget
  | BrPredict
deriving DecidableEq, Repr

def BrMode.fromVal : Nat → Option BrMode
  | 0 => some .BrTarget
  | 1 => some .BrPredict
  | _ => none

/-- `DecoderRuntimeCfg` (src/frontend/runtime_cfg.rs). -/
structure DecoderRuntimeCfg where
  br_mode : BrMode
  bp_entries : Nat
deriving DecidableEq, Repr

/-- `SubFunc3` (src/frontend/packet.rs). -/
inductive SubFunc3 where
  | none
  | trapType (t : TrapType)
  | syncType (s : SyncType)
deriving DecidableEq, Repr

/-- `Packet` (src/frontend/packet.rs).  The debug-only `_from_ctx` field is
named `from_ctx` here. -/
structure Packet where
  is_compressed : Bool
  c_header : CHeader
  f_header : FHeader
  func3 : SubFunc3
  target_address : Nat
  from_address : Nat
  target_prv : Prv
  from_ctx : Nat
  target_ctx : Nat
  from_prv : Prv
  timestamp : Nat
deriving DecidableEq, Repr

/-- `Packet::new` (src/frontend/packet.rs). -/
def Packet.new : Packet where
  is_compressed := false
  c_header := .CNa
  f_header := .FRes1
  func3 := .none
  target_address := 0
  from_address := 0
  target_prv := .PrvUser
  from_ctx := 0
  target_ctx := 0
  from_prv := .PrvUser
  timestamp := 0

/-- Errors of the packet reader.  The Rust code signals some of these as
`Result::Err` values (which `decode_trace`'s read loop catches) and others as
panics (which abort the thread); `PErr.isResult` records the distinction. -/
inductive PErr where
  | eof            -- short read in `read_u8` (`io::Error` from `read_exact`)
  | varintTooLong  -- `anyhow!("varint exceeded maximum length")`
  | badPrv         -- panic in `Prv::from` (invalid 3-bit code)
  | badChecksum    -- `assert!` on the prv-byte checksum
  | syncStartSeen  -- `assert!(sync_type != SyncType::SyncStart)` in `read_packet`
  | badFromPrv     -- `assert!(from_prv == Prv::PrvUser)`
  | badSyncType    -- panic in `SyncType::from`
  | badTrapType    -- panic in `TrapType::from`
  | badFHeader     -- `panic!("Invalid FHeader value")` on reserved codes
  | badFirstPacket -- `anyhow!` errors of `read_first_packet`
  | badBrMode      -- panic in `BrMode::from`
deriving DecidableEq, Repr

/-- `true` for errors returned as `Result::Err` (caught by the decoder's
`Err(_) => break`), `false` for panics, which abort instead. -/
def PErr.isResult : PErr → Bool
  | .eof => true
  | .varintTooLong => true
  | .badFirstPacket => true
  | _ => false

instance {e a : Type} [DecidableEq e] [DecidableEq a] :
    DecidableEq (Except e a) := fun x y =>
  match x, y with
  | .ok u, .ok v =>
    if h : u = v then isTrue (by rw [h]) else isFalse (by simp [h])
  | .error u, .error v =>
    if h : u = v then isTrue (by rw [h]) else isFalse (by simp [h])
  | .ok _, .error _ => isFalse (by simp)
  | .error _, .ok _ => isFalse (by simp)

def U64MOD : Nat := 2 ^ 64

/-- `read_u8` (src/frontend/packet.rs): one byte or a short-read error. -/
def readU8 : List Nat → Except PErr (Nat × List Nat)
  | [] => .error .eof
  | b :: rest => .ok (b, rest)

/-- The reading loop of `read_varint` (src/frontend/packet.rs): collect bytes
until one with the high bit set (`VAR_LAST`), failing once an 11th byte is
read (`count == scratch.len()` with a 10-byte scratch buffer).  Returns the
collected bytes and the remaining stream. -/
def readVarintLoop : Nat → List Nat → List Nat → Except PErr (List Nat × List Nat)
  | _, [], _ => .error .eof
  | count, b :: rest, acc =>
    if count = 10 then .error .varintTooLong
    else if b &&& 128 = 128 then .ok (acc ++ [b], rest)
    else readVarintLoop (count + 1) rest (acc ++ [b])

/-- The value-assembly loop of `read_varint`: iterate the collected bytes in
reverse, `value = (value << 7) | (byte & 0x7f)` on wrapping `u64`. -/
def varintValue (bytes : List Nat) : Nat :=
  bytes.foldr (fun b v => ((v <<< 7) % U64MOD) ||| (b &&& 127)) 0

/-- `read_varint` (src/frontend/packet.rs): returns the decoded value, the
number of bytes consumed, and the remaining stream. -/
def readVarint (stream : List Nat) : Except PErr (Nat × Nat × List Nat) :=
  match readVarintLoop 0 stream [] with
  | .error e => .error e
  | .ok (bytes, rest) => .ok (varintValue bytes, bytes.length, rest)

/-- `read_prv` (src/frontend/packet.rs): decode `from_prv` (bits 2:0) and
`target_prv` (bits 5:3); bits 7:6 must equal the `0b10` checksum. -/
def readPrv (stream : List Nat) : Except PErr (Prv × Prv × List Nat) :=
  match readU8 stream with
  | .error e => .error e
  | .ok (result, rest) =>
    match Prv.fromVal (result &&& 7) with
    | Option.none => .error .badPrv
    | some from_prv =>
      match Prv.fromVal ((result >>> 3) &&& 7) with
      | Option.none => .error .badPrv
      | some target_prv =>
        if (result >>> 6) &&& 3 = 2 then .ok (from_prv, target_prv, rest)
        else .error .badChecksum

/-- `read_packet` (src/frontend/packet.rs).  Refills the caller-supplied
packet and returns the number of bytes it reports as read, the refilled
packet, and the remaining stream. -/
def readPacket (stream : List Nat) (packet : Packet) :
    Except PErr (Nat × Packet × List Nat) :=
  match readU8 stream with
  | .error e => .error e
  | .ok (first_byte, rest) =>
    match CHeader.fromVal (first_byte &&& 3) with
    | .CNa =>
      let packet := { packet with is_compressed := false }
      match FHeader.fromVal ((first_byte &&& 0b11100) >>> 2) with
      | .FTb | .FNt | .FIj =>
        match readVarint rest with
        | .error e => .error e
        | .ok (timestamp, count, rest) =>
          .ok (1 + count,
            { packet with timestamp := timestamp
                          f_header := FHeader.fromVal ((first_byte &&& 0b11100) >>> 2)
                          c_header := .CNa }, rest)
      | .FUj =>
        match readVarint rest with
        | .error e => .error e
        | .ok (target_address, count₁, rest) =>
          match readVarint rest with
          | .error e => .error e
          | .ok (timestamp, count₂, rest) =>
            .ok (1 + count₁ + count₂,
              { packet with target_address := target_address
                            timestamp := timestamp
                            f_header := .FUj, c_header := .CNa }, rest)
      | .FSync =>
        match SyncType.fromVal ((first_byte &&& 0b11100000) >>> 5) with
        | Option.none => .error .badSyncType
        | some sync_type =>
          if sync_type = .SyncStart then .error .syncStartSeen
          else
            let packet := { packet with func3 := .syncType sync_type }
            match readPrv rest with
            | .error e => .error e
            | .ok (from_prv, target_prv, rest) =>
              if from_prv ≠ .PrvUser then .error .badFromPrv
              else
                -- NOTE: the source does not add the privilege byte to
                -- `bytes_read` in this branch (unlike the `FTrap` branch).
                let packet := { packet with from_prv := from_prv
                                            target_prv := target_prv }
                match readVarint rest with
                | .error e => .error e
                | .ok (target_ctx, count₁, rest) =>
                  match readVarint rest with
                  | .error e => .error e
                  | .ok (target_address, count₂, rest) =>
                    match readVarint rest with
                    | .error e => .error e
                    | .ok (timestamp, count₃, rest) =>
                      .ok (1 + count₁ + count₂ + count₃,
                        { packet with target_ctx := target_ctx
                                      target_address := target_address
                                      timestamp := timestamp
                                      f_header := .FSync, c_header := .CNa }, rest)
      | .FTrap =>
        match TrapType.fromVal ((first_byte &&& 0b11100000) >>> 5) with
        | Option.none => .error .badTrapType
        | some trap_type =>
          let packet := { packet with func3 := .trapType trap_type }
          match readPrv rest with
          | .error e => .error e
          | .ok (from_prv, target_prv, rest) =>
            let packet := { packet with from_prv := from_prv
                                        target_prv := target_prv }
            let readCtx : Except PErr (Nat × Packet × List Nat) :=
              if trap_type = .TReturn ∧ target_prv = .PrvUser then
                match readVarint rest with
                | .error e => .error e
                | .ok (target_ctx, count, rest) =>
                  .ok (count, { packet with target_ctx := target_ctx }, rest)
              else .ok (0, packet, rest)
            match readCtx with
            | .error e => .error e
            | .ok (count₀, packet, rest) =>
              match readVarint rest with
              | .error e => .error e
              | .ok (from_address, count₁, rest) =>
                match readVarint rest with
                | .error e => .error e
                | .ok (target_address, count₂, rest) =>
                  match readVarint rest with
                  | .error e => .error e
                  | .ok (timestamp, count₃, rest) =>
                    .ok (1 + 1 + count₀ + count₁ + count₂ + count₃,
                      { packet with from_address := from_address
                                    target_address := target_address
                                    timestamp := timestamp
                                    f_header := .FTrap, c_header := .CNa }, rest)
      | .FRes0 | .FRes1 => .error .badFHeader
    | c_header =>
      -- CTb | CNt | CIj: compressed record, 6-bit timestamp in the high bits
      .ok (1,
        { packet with timestamp := (first_byte &&& 0b11111100) >>> 2
                      f_header := FHeader.fromC c_header
                      c_header := c_header
                      is_compressed := true }, rest)

/-- `read_first_packet` (src/frontend/packet.rs): parse the leading
`FSync(Start)` record together with the runtime-configuration byte.  All
failures (both `Err` returns and panics) abort `decode_trace` before any
event is broadcast. -/
def readFirstPacket (stream : List Nat) :
    Except PErr (Packet × DecoderRuntimeCfg × List Nat) :=
  match readU8 stream with
  | .error e => .error e
  | .ok (first_byte, rest) =>
    if CHeader.fromVal (first_byte &&& 3) ≠ .CNa then .error .badFirstPacket
    else if FHeader.fromVal ((first_byte &&& 0b11100) >>> 2) ≠ .FSync then
      .error .badFirstPacket
    else
      match SyncType.fromVal ((first_byte &&& 0b11100000) >>> 5) with
      | Option.none => .error .badSyncType
      | some sync_type =>
        if sync_type ≠ .SyncStart then .error .badFirstPacket
        else
          let packet := { Packet.new with
            is_compressed := false
            c_header := .CNa
            f_header := .FSync
            func3 := .syncType .SyncStart }
          match readPrv rest with
          | .error e => .error e
          | .ok (from_prv, target_prv, rest) =>
            if from_prv ≠ .PrvUser then .error .badFromPrv
            else
              let packet := { packet with from_prv := from_prv
                                          target_prv := target_prv }
              match readVarint rest with
              | .error e => .error e
              | .ok (target_ctx, _, rest) =>
                match readU8 rest with
                | .error e => .error e
                | .ok (runtime_cfg_raw, rest) =>
                  match BrMode.fromVal (runtime_cfg_raw &&& 3) with
                  | Option.none => .error .badBrMode
                  | some br_mode =>
                    let bp_entries := ((runtime_cfg_raw &&& 0b11111100) >>> 2) * 64
                    match readVarint rest with
                    | .error e => .error e
                    | .ok (target_address, _, rest) =>
                      match readVarint rest with
                      | .error e => .error e
                      | .ok (timestamp, _, rest) =>
                        .ok ({ packet with target_ctx := target_ctx
                                           target_address := target_address
                                           timestamp := timestamp },
                             ⟨br_mode, bp_entries⟩, rest)

/-! ### Frontend decoder (src/frontend/decoder.rs) -/

/-- The fields of `rvdasm::insn::Insn` the decoder reads: length in bytes,
pc-relative signed offset, and the control-flow predicates. -/
structure Insn where
  len : Nat
  offset : Int
  is_branch : Bool
  is_direct_jump : Bool
  is_indirect_jump : Bool
deriving DecidableEq, Repr

/-- `Insn::is_cfc_insn`. -/
def Insn.is_cfc_insn (i : Insn) : Bool :=
  i.is_branch || i.is_direct_jump || i.is_indirect_jump

/-- An address → instruction map (`FxHashMap<u64, Insn>`). -/
abbrev InsnMap := Nat → Option Insn

/-- `InstructionIndex` (src/common/insn_index.rs): per-ASID user maps plus
flat kernel and machine maps. -/
structure InstructionIndex where
  u_insn_maps : Nat → Option InsnMap
  k_insn_map : InsnMap
  m_insn_map : InsnMap

/-- `InstructionIndex::get`: an unknown user ASID yields the empty map, and
`PrvHypervisor` panics (modelled as `none`). -/
def InstructionIndex.get? (idx : InstructionIndex) (space : Prv) (ctx : Nat) :
    Option InsnMap :=
  match space with
  | .PrvUser =>
    match idx.u_insn_maps ctx with
    | some m => some m
    | Option.none => some (fun _ => Option.none)
  | .PrvSupervisor => some idx.k_insn_map
  | .PrvMachine => some idx.m_insn_map
  | .PrvHypervisor => Option.none

/-- The part of `DecoderStaticCfg` (src/common/static_cfg.rs) the decoder
reads: the `(binary, asid)` tuples.  The source stores the ASID as a decimal
string and parses it on every `find_ctx` lookup; it is kept pre-parsed
here. -/
structure DecoderStaticCfg where
  application_binary_asid_tuples : List (String × Nat)
deriving DecidableEq, Repr

/-- `find_ctx` (src/frontend/decoder.rs): is `ctx` among the configured
ASIDs? -/
def find_ctx (ctx : Nat) (static_cfg : DecoderStaticCfg) : Bool :=
  static_cfg.application_binary_asid_tuples.any (fun t => t.2 = ctx)

/-- Modelled from the spec: `BpDoubleSaturatingCounter` of the missing
`src/frontend/bp_double_saturating_counter.rs` (§4.3.3): a direct-mapped
array of 2-bit saturating counters indexed by `pc mod bp_entries`,
initialised weakly-not-taken. -/
structure BpDoubleSaturatingCounter where
  entries : Nat
  table : Nat → Nat

def BpDoubleSaturatingCounter.new (entries : Nat) : BpDoubleSaturatingCounter :=
  ⟨entries, fun _ => 1⟩

/-- Modelled from the spec: `predict(pc, hint)` returns the counter's MSB,
then saturating-increments on `hint = taken` and saturating-decrements
otherwise.  With `bp_entries = 0` the Rust `pc % 0` panics, modelled as
`none`. -/
def BpDoubleSaturatingCounter.predict (bp : BpDoubleSaturatingCounter)
    (pc : Nat) (hint : Bool) : Option (Bool × BpDoubleSaturatingCounter) :=
  if bp.entries = 0 then Option.none
  else
    let idx := pc % bp.entries
    let c := bp.table idx
    let taken := decide (2 ≤ c)
    let c' := if hint then min (c + 1) 3 else c - 1
    some (taken, ⟨bp.entries, fun i => if i = idx then c' else bp.table i⟩)

/-- `TrapReason` (src/backend/event.rs). -/
inductive TrapReason where
  | Exception
  | Interrupt
  | Return
deriving DecidableEq, Repr

/-- `impl From<TrapType> for TrapReason` (src/backend/event.rs); `TNone`
panics, modelled as `none`. -/
def TrapReason.fromType : TrapType → Option TrapReason
  | .TException => some .Exception
  | .TInterrupt => some .Interrupt
  | .TReturn => some .Return
  | .TNone => Option.none

/-- `EventKind` (src/backend/event.rs). -/
inductive EventKind where
  | TakenBranch (arc : Nat × Nat)
  | NonTakenBranch (arc : Nat × Nat)
  | UninferableJump (arc : Nat × Nat)
  | InferrableJump (arc : Nat × Nat)
  | Trap (reason : TrapReason) (prv_arc : Prv × Prv) (arc : Nat × Nat)
      (ctx : Option Nat)
  | SyncStart (runtime_cfg : DecoderRuntimeCfg) (start_pc : Nat)
      (start_prv : Prv) (start_ctx : Nat)
  | SyncEnd (end_pc : Nat)
  | SyncPeriodic
  | BPHit (hit_count : Nat)
  | BPMiss
  | Panic
deriving DecidableEq, Repr

/-- `Entry` (src/backend/event.rs). -/
inductive Entry where
  | instruction (insn : Insn) (pc : Nat)
  | event (timestamp : Nat) (kind : EventKind)
deriving DecidableEq, Repr

/-! PC model and address codec (src/frontend/decoder.rs, `ADDR_BITS = 40`).
A `PC` is just its `addr : u64` field, kept as a `Nat < 2^64`. -/

def ADDR_MASK : Nat := 2 ^ 40 - 1
def SIGNED_ADDR_EXTENDER_MASK : Nat := 2 ^ 24 - 1

/-- `PC::new`: store the wire address shifted left by one. -/
def pcNew (unshifted_addr : Nat) : Nat := (unshifted_addr <<< 1) % U64MOD

/-- `PC::compute_from_xored_target_addr`: XOR the low 40 bits of the current
`addr` with the refunded packet payload. -/
def pcComputeFromXoredTarget (addr target_addr : Nat) : Nat :=
  let refunded_delta := (target_addr <<< 1) % U64MOD
  (addr &&& ADDR_MASK) ^^^ refunded_delta

/-- `PC::get_addr`: sign-extend from bit `ADDR_BITS - 1 = 39` (the extender
is applied only when `addr >> 39` is exactly 1, as in the source). -/
def pcGetAddr (addr : Nat) : Nat :=
  let sign_bit := addr >>> 39
  let extender := if sign_bit = 1 then SIGNED_ADDR_EXTENDER_MASK else 0
  addr ||| (extender <<< 40)

/-- `refund_addr` (src/frontend/decoder.rs): shift left by one and
sign-extend from bit 39. -/
def refund_addr (addr : Nat) : Nat :=
  let shifted_addr := (addr <<< 1) % U64MOD
  let sign_bit := shifted_addr >>> 39
  let extender := if sign_bit = 1 then SIGNED_ADDR_EXTENDER_MASK else 0
  shifted_addr ||| (extender <<< 40)

/-- `(pc as i64 + offset as i64) as u64`: two's-complement wrapping add. -/
def addOffset (pc : Nat) (offset : Int) : Nat :=
  (((pc : Int) + offset).emod (2 ^ 64)).toNat

/-- The walking loop of `step_bb` (src/frontend/decoder.rs), after the cache
lookup.  `fuel` bounds the walk; `none` models the `unwrap` panic on a
missing address (or a walk that never reaches a control-flow change). -/
def step_bb_go (insn_map : InsnMap) (stop_on_ij : Bool) :
    Nat → Nat → Option Nat
  | 0, _ => Option.none
  | fuel + 1, pc =>
    match insn_map pc with
    | Option.none => Option.none
    | some insn =>
      if stop_on_ij then
        if insn.is_cfc_insn then some pc
        else step_bb_go insn_map stop_on_ij fuel ((pc + insn.len) % U64MOD)
      else
        if insn.is_branch || insn.is_indirect_jump then some pc
        else if insn.is_direct_jump then
          step_bb_go insn_map stop_on_ij fuel (addOffset pc insn.offset)
        else step_bb_go insn_map stop_on_ij fuel ((pc + insn.len) % U64MOD)

/-- `step_bb` (src/frontend/decoder.rs): consult the decoder cache first,
walk otherwise, and memoize the result keyed by the starting pc. -/
def step_bb (sfuel : Nat) (pc : Nat) (insn_map : InsnMap) (br_mode : BrMode)
    (cache : List (Nat × Nat)) : Option (Nat × List (Nat × Nat)) :=
  match cache.lookup pc with
  | some target_pc => some (target_pc, cache)
  | Option.none =>
    match step_bb_go insn_map (br_mode = .BrTarget) sfuel pc with
    | Option.none => Option.none
    | some end_pc => some (end_pc, (pc, end_pc) :: cache)

/-- `step_bb_until` (src/frontend/decoder.rs): walk until a branch or direct
jump, or until `target_pc` is reached. -/
def step_bb_until (insn_map : InsnMap) (target_pc : Nat) :
    Nat → Nat → Option Nat
  | 0, _ => Option.none
  | fuel + 1, pc =>
    match insn_map pc with
    | Option.none => Option.none
    | some insn =>
      if insn.is_branch || insn.is_direct_jump then some pc
      else if pc = target_pc then some pc
      else step_bb_until insn_map target_pc fuel ((pc + insn.len) % U64MOD)

/-- The decoder's mutable state in `decode_trace`: the `PC`, the running
timestamp (kept exact, see the header comment), privilege, context, the
unknown-context flag, the decoder cache and the branch predictor. -/
structure DecState where
  pc : Nat
  timestamp : Nat
  prv : Prv
  ctx : Nat
  u_unknown_ctx : Bool
  cache : List (Nat × Nat)
  bp : BpDoubleSaturatingCounter

/-- Outcome of processing one packet in the decoder loop: continue with new
state, break out (on `FSync`), or abort the thread (a Rust panic), each with
the entries broadcast while processing this packet.  `crash` also carries
the decoder's local state at the moment of the panic; Rust discards those
locals, the model keeps them so invariants can mention the timestamp
reached. -/
inductive StepOut where
  | cont (events : List Entry) (st : DecState)
  | stop (events : List Entry)
  | crash (events : List Entry) (st : DecState)

/-- The `for _ in 0..packet.timestamp` loop of the predict-mode `FTb` arm:
step to the next branch, consult the predictor with hint-taken, emit the
branch event at the (unadvanced) running timestamp. -/
def predictLoop (sfuel : Nat) (insn_map : InsnMap) (br_mode : BrMode) :
    Nat → DecState → List Entry → StepOut
  | 0, st, evs => .cont evs st
  | n + 1, st, evs =>
    match step_bb sfuel (pcGetAddr st.pc) insn_map br_mode st.cache with
    | Option.none => .crash evs st
    | some (new_pc, cache') =>
      let st := { st with pc := new_pc, cache := cache' }
      match insn_map (pcGetAddr st.pc) with
      | Option.none => .crash evs st
      | some insn_to_resolve =>
        if !insn_to_resolve.is_branch then
          .crash (evs ++ [.event 0 .Panic]) st
        else
          match st.bp.predict (pcGetAddr st.pc) true with
          | Option.none => .crash evs st
          | some (taken, bp') =>
            let st := { st with bp := bp' }
            if taken then
              let new_pc := addOffset (pcGetAddr st.pc) insn_to_resolve.offset
              predictLoop sfuel insn_map br_mode n { st with pc := new_pc }
                (evs ++ [.event (st.timestamp % U64MOD)
                  (.TakenBranch (pcGetAddr st.pc, new_pc))])
            else
              let new_pc := (pcGetAddr st.pc + insn_to_resolve.len) % U64MOD
              predictLoop sfuel insn_map br_mode n { st with pc := new_pc }
                (evs ++ [.event (st.timestamp % U64MOD)
                  (.NonTakenBranch (pcGetAddr st.pc, new_pc))])

/-- One iteration of the decoder's main loop (src/frontend/decoder.rs lines
219–465), after `read_packet` succeeded. -/
def decode_step (sfuel : Nat) (static_cfg : DecoderStaticCfg)
    (insn_index : InstructionIndex) (br_mode : BrMode) (packet : Packet)
    (st : DecState) : StepOut :=
  let mode_is_predict := br_mode = .BrPredict
  match insn_index.get? st.prv st.ctx with
  | Option.none => .crash [] st
  | some curr_insn_map =>
    if packet.f_header = .FSync then
      match step_bb_until curr_insn_map (refund_addr packet.target_address)
          sfuel (pcGetAddr st.pc) with
      | Option.none => .crash [] st
      | some new_pc =>
        .stop [.event packet.timestamp (.SyncEnd (pcGetAddr new_pc))]
    else if packet.f_header = .FTrap then
      let trapping_pc := refund_addr packet.from_address
      let stepOk : Bool :=
        if ¬(st.u_unknown_ctx ∧ st.prv = .PrvUser) then
          match step_bb_until curr_insn_map trapping_pc sfuel
              (pcGetAddr st.pc) with
          | Option.none => false
          | some new_pc => new_pc = trapping_pc
        else true
      if !stepOk then .crash [] st
      else
        match packet.func3 with
        | .trapType trap_type =>
          let ts' := st.timestamp + packet.timestamp
          let report_ctx :=
            trap_type = .TReturn ∧ packet.target_prv = .PrvUser
          let prv' := packet.target_prv
          let trapping_pc_to_report := pcGetAddr trapping_pc
          let new_pc := pcComputeFromXoredTarget trapping_pc
            packet.target_address
          let new_pc_to_report := pcGetAddr new_pc
          match insn_index.get? prv' st.ctx with
          | Option.none =>
            .crash [] { st with pc := new_pc, timestamp := ts', prv := prv' }
          | some _ =>
            match TrapReason.fromType trap_type with
            | Option.none =>
              .crash [] { st with pc := new_pc, timestamp := ts', prv := prv' }
            | some reason =>
              if report_ctx then
                let indexed := find_ctx packet.target_ctx static_cfg
                let cache' :=
                  if indexed ∧ st.ctx ≠ packet.target_ctx then [] else st.cache
                let ctx' := if indexed then packet.target_ctx else st.ctx
                .cont [.event (ts' % U64MOD)
                    (.Trap reason (prv', packet.target_prv)
                      (trapping_pc_to_report, new_pc_to_report)
                      (some packet.target_ctx))]
                  { st with pc := new_pc, timestamp := ts', prv := prv'
                            ctx := ctx', u_unknown_ctx := !indexed
                            cache := cache' }
              else
                .cont [.event (ts' % U64MOD)
                    (.Trap reason (prv', packet.target_prv)
                      (trapping_pc_to_report, new_pc_to_report) Option.none)]
                  { st with pc := new_pc, timestamp := ts', prv := prv' }
        | _ => .crash [] st
    else if mode_is_predict ∧ packet.f_header = .FTb then
      predictLoop sfuel curr_insn_map br_mode packet.timestamp st
        [.event packet.timestamp (.BPHit packet.timestamp)]
    else if mode_is_predict ∧ packet.f_header = .FNt then
      let ts' := st.timestamp + packet.timestamp
      let st := { st with timestamp := ts' }
      let evs := [.event (ts' % U64MOD) .BPMiss]
      match step_bb sfuel (pcGetAddr st.pc) curr_insn_map br_mode st.cache with
      | Option.none => .crash evs st
      | some (new_pc, cache') =>
        let st := { st with pc := new_pc, cache := cache' }
        match curr_insn_map (pcGetAddr st.pc) with
        | Option.none => .crash evs st
        | some insn_to_resolve =>
          if !insn_to_resolve.is_branch then
            .crash (evs ++ [.event 0 .Panic]) st
          else
            match st.bp.predict (pcGetAddr st.pc) false with
            | Option.none => .crash evs st
            | some (taken, bp') =>
              let st := { st with bp := bp' }
              if !taken then
                let new_pc :=
                  addOffset (pcGetAddr st.pc) insn_to_resolve.offset
                .cont (evs ++ [.event (ts' % U64MOD)
                    (.TakenBranch (pcGetAddr st.pc, new_pc))])
                  { st with pc := new_pc }
              else
                let new_pc := (pcGetAddr st.pc + insn_to_resolve.len) % U64MOD
                .cont (evs ++ [.event (ts' % U64MOD)
                    (.NonTakenBranch (pcGetAddr st.pc, new_pc))])
                  { st with pc := new_pc }
    else
      -- branch-target mode handling of FTb/FNt/FIj/FUj (and FIj/FUj in
      -- predict mode)
      if st.u_unknown_ctx ∧ st.prv = .PrvUser then
        .cont [] { st with timestamp := st.timestamp + packet.timestamp }
      else
        match step_bb sfuel (pcGetAddr st.pc) curr_insn_map br_mode
            st.cache with
        | Option.none => .crash [] st
        | some (new_pc, cache') =>
          let st := { st with pc := new_pc, cache := cache' }
          match curr_insn_map (pcGetAddr st.pc) with
          | Option.none => .crash [] st
          | some insn_to_resolve =>
            let ts' := st.timestamp + packet.timestamp
            let st := { st with timestamp := ts' }
            match packet.f_header with
            | .FTb =>
              if !insn_to_resolve.is_branch then
                .crash [.event 0 .Panic] st
              else
                let new_pc :=
                  addOffset (pcGetAddr st.pc) insn_to_resolve.offset
                .cont [.event (ts' % U64MOD)
                    (.TakenBranch (pcGetAddr st.pc, new_pc))]
                  { st with pc := new_pc }
            | .FNt =>
              if !insn_to_resolve.is_branch then
                .crash [.event 0 .Panic] st
              else
                let new_pc := (pcGetAddr st.pc + insn_to_resolve.len) % U64MOD
                .cont [.event (ts' % U64MOD)
                    (.NonTakenBranch (pcGetAddr st.pc, new_pc))]
                  { st with pc := new_pc }
            | .FIj =>
              if !insn_to_resolve.is_direct_jump then
                .crash [.event 0 .Panic] st
              else
                let old_pc_to_report := pcGetAddr st.pc
                let new_pc :=
                  addOffset (pcGetAddr st.pc) insn_to_resolve.offset
                .cont [.event (ts' % U64MOD)
                    (.InferrableJump (old_pc_to_report, pcGetAddr new_pc))]
                  { st with pc := new_pc }
            | .FUj =>
              if !insn_to_resolve.is_indirect_jump then
                .crash [.event 0 .Panic] st
              else
                let new_pc :=
                  pcComputeFromXoredTarget st.pc packet.target_address
                let old_pc_to_report := pcGetAddr st.pc
                .cont [.event (ts' % U64MOD)
                    (.UninferableJump (old_pc_to_report, pcGetAddr new_pc))]
                  { st with pc := new_pc }
            | _ => .crash [.event 0 .Panic] st

/-- Why the decoder loop ended: clean end of stream (`Err(_) => break`),
`FSync` (`break` after `SyncEnd`), or a Rust panic. -/
inductive StopReason where
  | eos
  | syncEnd
  | crashed
deriving DecidableEq, Repr

/-- The decoder's main loop: read a packet into the reused buffer, process
it, repeat.  `fuel` bounds the number of iterations (each successful read
consumes at least one byte, so `stream.length + 1` is always enough);
exhausted fuel is reported as `crashed`. -/
def decode_loop (sfuel : Nat) (static_cfg : DecoderStaticCfg)
    (insn_index : InstructionIndex) (br_mode : BrMode) :
    Nat → List Nat → Packet → DecState → List Entry × StopReason × DecState
  | 0, _, _, st => ([], .crashed, st)
  | fuel + 1, stream, packet, st =>
    match readPacket stream packet with
    | .error e => ([], if e.isResult then .eos else .crashed, st)
    | .ok (_, packet', rest) =>
      match decode_step sfuel static_cfg insn_index br_mode packet' st with
      | .crash evs stC => (evs, .crashed, stC)
      | .stop evs => (evs, .syncEnd, st)
      | .cont evs st' =>
        let (evs₂, reason, stF) :=
          decode_loop sfuel static_cfg insn_index br_mode fuel rest packet' st'
        (evs ++ evs₂, reason, stF)

/-- `decode_trace` (src/frontend/decoder.rs): parse the first packet, seed
the state, broadcast `SyncStart`, then run the loop.  `none` models the
early returns and panics before any event is broadcast. -/
def decode_trace (sfuel : Nat) (static_cfg : DecoderStaticCfg)
    (runtime_cfg : DecoderRuntimeCfg) (insn_index : InstructionIndex)
    (stream : List Nat) : Option (List Entry × StopReason) :=
  match readFirstPacket stream with
  | .error _ => Option.none
  | .ok (first_packet, first_runtime_cfg, rest) =>
    let st₀ : DecState :=
      { pc := pcNew first_packet.target_address
        timestamp := first_packet.timestamp
        prv := first_packet.target_prv
        ctx := first_packet.target_ctx
        u_unknown_ctx := false
        cache := []
        bp := BpDoubleSaturatingCounter.new runtime_cfg.bp_entries }
    let ev₀ : Entry := .event first_packet.timestamp
      (.SyncStart first_runtime_cfg (pcGetAddr st₀.pc) st₀.prv st₀.ctx)
    let (evs, reason, _) := decode_loop sfuel static_cfg insn_index
      runtime_cfg.br_mode (rest.length + 1) rest first_packet st₀
    some (ev₀ :: evs, reason)

/-! ### Stack unwinder (src/backend/stack_unwinder.rs) -/

/-- `SourceLocation` (src/common/source_location.rs). -/
structure SourceLocation where
  file : String
  lines : Nat
  prv : Prv
deriving DecidableEq, Repr

/-- `SymbolInfo` (src/common/symbol_index.rs). -/
structure SymbolInfo where
  name : String
  src : SourceLocation
  prv : Prv
  ctx : Nat
deriving DecidableEq, Repr

/-- The symbol index as the stack unwinder consumes it: per-privilege point
lookup (`get(prv)` followed by map indexing) and the `[start, end)` range
lookup.  (stack_unwinder.rs calls both with the privilege only; the ASID
argument of `SymbolIndex` in symbol_index.rs does not appear there.) -/
structure SymbolIndex where
  get : Prv → Nat → Option SymbolInfo
  range : Prv → Nat → Option (Nat × Nat)

/-- `Frame` (src/backend/stack_unwinder.rs). -/
structure Frame where
  prv : Prv
  symbol : SymbolInfo
  addr : Nat
deriving DecidableEq, Repr

/-- `StackUpdateResult` (src/backend/stack_unwinder.rs). -/
structure StackUpdateResult where
  frame_stack_size : Nat
  frames_opened : List Frame
  frames_closed : List Frame
deriving DecidableEq, Repr

/-- `StackUnwinder` (src/backend/stack_unwinder.rs).  `frame_stack` keeps
the `Vec` order: bottom of the stack first, top of the stack last. -/
structure StackUnwinder where
  func_symbol_map : SymbolIndex
  frame_stack : List Frame
  curr_prv : Prv

/-- `StackUnwinder::new`. -/
def StackUnwinder.new (func_symbol_map : SymbolIndex) : StackUnwinder :=
  ⟨func_symbol_map, [], .PrvMachine⟩

/-- `StackUnwinder::push_frame`: look the address up in the current
privilege's symbol map; on a hit push a frame and return it. -/
def StackUnwinder.push_frame (st : StackUnwinder) (prv : Prv) (addr : Nat) :
    StackUnwinder × Option Frame :=
  match st.func_symbol_map.get prv addr with
  | Option.none => (st, Option.none)
  | some symbol =>
    let frame : Frame := ⟨prv, symbol, addr⟩
    ({ st with frame_stack := st.frame_stack ++ [frame] }, some frame)

/-- The pop loop of the `TrapReason::Return` arm of `step_trap`, acting on
the reversed stack (top of the stack first): pop frames while the top
frame's privilege differs from `curr_prv`.  Returns the remaining reversed
stack and the closed frames in pop order. -/
def popUntilPrvRev (p : Prv) : List Frame → List Frame → List Frame × List Frame
  | [], closed => ([], closed)
  | f :: rest, closed =>
    if f.prv = p then (f :: rest, closed)
    else popUntilPrvRev p rest (closed ++ [f])

/-- The pop loop of the return path of `step_uj`, on the reversed stack: pop
frames until the top frame's `[start, end)` range contains the target.
`none` models the `.expect("missing symbol in map")` panic. -/
def popUntilRangeRev (symIdx : SymbolIndex) (p : Prv) (target : Nat) :
    List Frame → List Frame → Option (List Frame × List Frame)
  | [], closed => some ([], closed)
  | f :: rest, closed =>
    match symIdx.range p f.addr with
    | Option.none => Option.none
    | some (start, stop) =>
      if start ≤ target ∧ stop > target then some (f :: rest, closed)
      else popUntilRangeRev symIdx p target rest (closed ++ [f])

/-- `StackUnwinder::step_sync_start`. -/
def StackUnwinder.step_sync_start (st : StackUnwinder) (start_prv : Prv) :
    StackUnwinder × Option StackUpdateResult :=
  ({ st with curr_prv := start_prv }, Option.none)

/-- `StackUnwinder::step_ij`: push a frame when the target is a known
function entry, otherwise no-op. -/
def StackUnwinder.step_ij (st : StackUnwinder) (to_addr : Nat) :
    StackUnwinder × Option StackUpdateResult :=
  match st.push_frame st.curr_prv to_addr with
  | (st', some frame) =>
    (st', some ⟨st'.frame_stack.length, [frame], []⟩)
  | (st', Option.none) => (st', Option.none)

/-- `StackUnwinder::step_uj`: push on an indirect call to a function entry,
otherwise pop as a return until the top frame's range contains the target.
The outer `Option` is the `.expect` panic inside the pop loop. -/
def StackUnwinder.step_uj (st : StackUnwinder) (to_addr : Nat) :
    Option (StackUnwinder × Option StackUpdateResult) :=
  match st.func_symbol_map.get st.curr_prv to_addr with
  | some symbol =>
    let frame : Frame := ⟨st.curr_prv, symbol, to_addr⟩
    let st' := { st with frame_stack := st.frame_stack ++ [frame] }
    some (st', some ⟨st'.frame_stack.length, [frame], []⟩)
  | Option.none =>
    match popUntilRangeRev st.func_symbol_map st.curr_prv to_addr
        st.frame_stack.reverse [] with
    | Option.none => Option.none
    | some (remRev, closed) =>
      let st' := { st with frame_stack := remRev.reverse }
      some (st', some ⟨st'.frame_stack.length, [], closed⟩)

/-- `StackUnwinder::step_trap`. -/
def StackUnwinder.step_trap (st : StackUnwinder) (reason : TrapReason)
    (prv_arc : Prv × Prv) (to_addr : Nat) :
    StackUnwinder × Option StackUpdateResult :=
  match reason with
  | .Exception | .Interrupt =>
    let st₁ := { st with curr_prv := prv_arc.2 }
    match st₁.push_frame st₁.curr_prv to_addr with
    | (st₂, some frame) =>
      (st₂, some ⟨st₂.frame_stack.length, [frame], []⟩)
    | (st₂, Option.none) => (st₂, Option.none)
  | .Return =>
    let (remRev, closed) := popUntilPrvRev st.curr_prv st.frame_stack.reverse []
    let st' := { st with frame_stack := remRev.reverse }
    (st', some ⟨st'.frame_stack.length, [], closed⟩)

/-- `StackUnwinder::step`: dispatch on the entry.  The outer `Option` is a
panic inside `step_uj`; `Instruction` entries and the remaining event kinds
leave the unwinder unchanged and yield no update. -/
def StackUnwinder.step (st : StackUnwinder) (entry : Entry) :
    Option (StackUnwinder × Option StackUpdateResult) :=
  match entry with
  | .instruction _ _ => some (st, Option.none)
  | .event _ kind =>
    match kind with
    | .SyncStart _ _ start_prv _ => some (st.step_sync_start start_prv)
    | .InferrableJump arc => some (st.step_ij arc.2)
    | .UninferableJump arc => st.step_uj arc.2
    | .Trap reason prv_arc arc _ => some (st.step_trap reason prv_arc arc.2)
    | _ => some (st, Option.none)

/-- `StackUnwinder::flush`: report every remaining frame as closed.  The
source does not touch `frame_stack`, so the unwinder itself is returned
unchanged. -/
def StackUnwinder.flush (st : StackUnwinder) :
    StackUnwinder × Option StackUpdateResult :=
  (st, some ⟨st.frame_stack.length, [], st.frame_stack⟩)

/-- `StackUnwinder::peek_head_frames`: the top of the stack (last `Vec`
element). -/
def StackUnwinder.peek_head_frames (st : StackUnwinder) : Option Frame :=
  st.frame_stack.getLast?

/-! ### Concrete fixtures used by the claim theorems.

The traces follow the spec's end-to-end scenarios: a user binary at ASID 7
with code at `0x1000` (wire address `0x800`, since addresses travel shifted
right by one). -/

/-- A 4-byte conditional branch with offset 16. -/
def branchInsn : Insn := ⟨4, 16, true, false, false⟩

/-- A 4-byte direct jump with offset 8. -/
def djInsn : Insn := ⟨4, 8, false, true, false⟩

/-- User-space instruction map for ASID 7: a branch at `0x1000`, a direct
jump at `0x1004`. -/
def userMap7 : InsnMap := fun a =>
  if a = 0x1000 then some branchInsn
  else if a = 0x1004 then some djInsn
  else Option.none

/-- Instruction index with the single user ASID 7. -/
def fixIdx : InstructionIndex :=
  ⟨fun ctx => if ctx = 7 then some userMap7 else Option.none,
   fun _ => Option.none, fun _ => Option.none⟩

/-- Static config whose only indexed ASID is 7. -/
def fixCfg : DecoderStaticCfg := ⟨[("app.elf", 7)]⟩

/-- `FSync(Start)` at `prv = User`, `ctx = 7`, `pc = 0x1000`, `ts = 0`,
runtime config `BrTarget`/0 entries. -/
def startBytes : List Nat := [0x38, 0x80, 0x87, 0x00, 0x00, 0x90, 0x80]

/-- `FTrap(Exception)` from `User@0x1000` into `Supervisor@0x2000`,
`ts += 7` (target on the wire is the xor `0x1000 ⊕ 0x2000` shifted). -/
def trapExcBytes : List Nat := [0x34, 0x88, 0x00, 0x90, 0x00, 0xB0, 0x87]

/-- `FTrap(Return)` from `Supervisor@0x1000` back to `User` with
`target_ctx = 99` (not indexed), `ts += 7`. -/
def trapRetBytes : List Nat := [0x94, 0x81, 0xE3, 0x00, 0x90, 0x00, 0xB0, 0x87]

/-- C1 (counterexample): decoding `Start(User, ctx 7)` followed by
`FTrap(Exception, from User@0x1000, to Supervisor@0x2000)` emits the Trap
event with `prv_arc = (Supervisor, Supervisor)` — not `(User, Supervisor)`
as the claim states: `decode_trace` assigns `prv = packet.target_prv`
before constructing the event, so the pre-trap privilege is lost. -/
theorem trap_prv_arc_C1_cex :
    decode_trace 100 fixCfg ⟨.BrTarget, 0⟩ fixIdx (startBytes ++ trapExcBytes)
        = some ([.event 0 (.SyncStart ⟨.BrTarget, 0⟩ 0x1000 .PrvUser 7),
                 .event 7 (.Trap .Exception (.PrvSupervisor, .PrvSupervisor)
                   (0x1000, 0x2000) Option.none)], .eos)
      ∧ ((Prv.PrvSupervisor, Prv.PrvSupervisor)
          ≠ (Prv.PrvUser, Prv.PrvSupervisor)) := by decide

/-- C2 (counterexample): a `Return` to the unindexed ASID 99 still emits
`Trap{…, ctx = Some 99}`; the claim says the `ctx` field is absent in this
case. -/
theorem trap_return_ctx_C2_cex :
    decode_trace 100 fixCfg ⟨.BrTarget, 0⟩ fixIdx (startBytes ++ trapRetBytes)
        = some ([.event 0 (.SyncStart ⟨.BrTarget, 0⟩ 0x1000 .PrvUser 7),
                 .event 7 (.Trap .Return (.PrvUser, .PrvUser)
                   (0x1000, 0x2000) (some 99))], .eos)
      ∧ (some 99 ≠ (Option.none : Option Nat)) := by decide

/-- C3 (counterexample): after a `NonTakenBranch` at timestamp 5, a packet
demanding a branch at a direct-jump address broadcasts `Panic` with
timestamp 0 — a later entry with a smaller timestamp, though neither entry
is a `SyncStart`. -/
theorem timestamp_mono_C3_cex :
    decode_trace 100 fixCfg ⟨.BrTarget, 0⟩ fixIdx (startBytes ++ [0x16, 0x05])
        = some ([.event 0 (.SyncStart ⟨.BrTarget, 0⟩ 0x1000 .PrvUser 7),
                 .event 5 (.NonTakenBranch (0x1000, 0x1004)),
                 .event 0 .Panic], .crashed)
      ∧ ¬(5 ≤ 0) := by decide

/-- C6 (counterexample): in `BrPredict` mode, a compressed `FTb` packet that
arrives while `u_unknown_ctx ∧ prv = User` (set by the preceding `Return` to
the unindexed ASID 99) is *not* skipped: it emits a `BPHit` event.  The
skip check sits only in the branch-target path. -/
theorem unknown_ctx_skip_C6_cex :
    decode_trace 100 fixCfg ⟨.BrPredict, 64⟩ fixIdx
        (startBytes ++ trapRetBytes ++ [0x01])
        = some ([.event 0 (.SyncStart ⟨.BrTarget, 0⟩ 0x1000 .PrvUser 7),
                 .event 7 (.Trap .Return (.PrvUser, .PrvUser)
                   (0x1000, 0x2000) (some 99)),
                 .event 0 (.BPHit 0)], .eos)
      ∧ [Entry.event 0 (.BPHit 0)] ≠ ([] : List Entry) := by decide

/-- C7 (counterexample): a trace truncated in the middle of an `FUj` record
(header byte `0x0C` read, varint cut short) decodes to exactly the same
result as the cleanly ended trace — a normal end-of-stream stop with no
`Panic` event and no distinct corrupt-stream outcome. -/
theorem short_read_eos_C7_cex :
    decode_trace 100 fixCfg ⟨.BrTarget, 0⟩ fixIdx (startBytes ++ [0x0C, 0x01])
        = some ([.event 0 (.SyncStart ⟨.BrTarget, 0⟩ 0x1000 .PrvUser 7)], .eos)
      ∧ decode_trace 100 fixCfg ⟨.BrTarget, 0⟩ fixIdx startBytes
        = some ([.event 0 (.SyncStart ⟨.BrTarget, 0⟩ 0x1000 .PrvUser 7)], .eos)
      := by decide

/-! ### Varint codec theory (claim C9) -/

/-- Modelled from the spec: the encoder side of the varint codec (§6.1),
which lives in the trace-producing repository, not under `src/`:
little-endian base-128, least-significant 7 bits in the first byte, high bit
set on the final byte only. -/
def encodeVarint (v : Nat) : List Nat :=
  if v < 128 then [v ||| 128]
  else (v % 128) :: encodeVarint (v / 128)
termination_by v
decreasing_by exact Nat.div_lt_self (by omega) (by omega)

lemma lor128_eq (v : Nat) (h : v < 128) : v ||| 128 = 128 + v := by
  have := Nat.mul_add_lt_is_or (by omega : v < 2 ^ 7) 1
  simpa [Nat.lor_comm] using this.symm

lemma lor128_and128 (v : Nat) (h : v < 128) : (v ||| 128) &&& 128 = 128 := by
  rw [lor128_eq v h]
  have h2 := Nat.and_two_pow (128 + v) 7
  simp only [show (2:Nat) ^ 7 = 128 by norm_num] at h2
  rw [h2]
  have h3 : (128 + v).testBit 7 = true := by
    rw [Nat.testBit_to_div_mod]
    simp [show (2:Nat) ^ 7 = 128 by norm_num, Nat.div_eq_of_lt h,
      Nat.add_div_right]
  simp [h3]

lemma lor128_and127 (v : Nat) (h : v < 128) : (v ||| 128) &&& 127 = v := by
  rw [lor128_eq v h]
  have h2 := Nat.and_pow_two_sub_one_eq_mod (128 + v) 7
  simp only [show (2:Nat) ^ 7 - 1 = 127 by norm_num,
    show (2:Nat) ^ 7 = 128 by norm_num] at h2
  rw [h2]
  omega

lemma small_and128 (v : Nat) (h : v < 128) : v &&& 128 ≠ 128 := by
  have h2 := Nat.and_two_pow v 7
  simp only [show (2:Nat) ^ 7 = 128 by norm_num] at h2
  have h3 : v.testBit 7 = false := Nat.testBit_lt_two_pow (by omega)
  simp [h3] at h2
  omega

lemma small_and127 (v : Nat) (h : v < 128) : v &&& 127 = v := by
  have h2 := Nat.and_pow_two_sub_one_eq_mod v 7
  simp only [show (2:Nat) ^ 7 - 1 = 127 by norm_num,
    show (2:Nat) ^ 7 = 128 by norm_num] at h2
  rw [h2, Nat.mod_eq_of_lt h]

/-- The reading loop consumes exactly an encoded varint when it fits in the
10-byte scratch buffer. -/
lemma readVarintLoop_encode (v : Nat) : ∀ (count : Nat) (acc rest : List Nat),
    count + (encodeVarint v).length ≤ 10 →
    readVarintLoop count (encodeVarint v ++ rest) acc
      = .ok (acc ++ encodeVarint v, rest) := by
  induction v using Nat.strong_induction_on with
  | _ v ih =>
    intro count acc rest hlen
    by_cases h : v < 128
    · rw [encodeVarint, if_pos h] at hlen ⊢
      simp only [List.length_cons, List.length_nil] at hlen
      simp only [List.cons_append, List.nil_append, readVarintLoop]
      rw [if_neg (by omega), if_pos (lor128_and128 v h)]
      rfl
    · rw [encodeVarint, if_neg h] at hlen ⊢
      simp only [List.length_cons] at hlen
      simp only [List.cons_append, readVarintLoop]
      rw [if_neg (by omega),
        if_neg (small_and128 _ (Nat.mod_lt _ (by omega)))]
      have hrec := ih (v / 128) (Nat.div_lt_self (by omega) (by omega))
        (count + 1) (acc ++ [v % 128]) rest (by omega)
      simpa using hrec

/-- Decoding the collected bytes of an encoded varint recovers the value
(no wrap occurs below `2^64`). -/
lemma varintValue_encode (v : Nat) (hv : v < 2 ^ 64) :
    varintValue (encodeVarint v) = v := by
  induction v using Nat.strong_induction_on with
  | _ v ih =>
    by_cases h : v < 128
    · rw [encodeVarint, if_pos h]
      simp only [varintValue, List.foldr_cons, List.foldr_nil]
      rw [lor128_and127 v h]
      simp [U64MOD]
    · rw [encodeVarint, if_neg h]
      have hdiv : v / 128 < 2 ^ 64 := lt_of_le_of_lt (Nat.div_le_self _ _) hv
      have ihv := ih (v / 128) (Nat.div_lt_self (by omega) (by omega)) hdiv
      simp only [varintValue, List.foldr_cons] at ihv ⊢
      rw [ihv, small_and127 _ (Nat.mod_lt _ (by omega))]
      have hsh : (v / 128) <<< 7 = 2 ^ 7 * (v / 128) := by
        rw [Nat.shiftLeft_eq]; ring
      have hmul : 2 ^ 7 * (v / 128) + v % 128 = v := by omega
      have hlt : 2 ^ 7 * (v / 128) < U64MOD := by
        have hle : 2 ^ 7 * (v / 128) ≤ v := by omega
        exact lt_of_le_of_lt hle (by simpa [U64MOD] using hv)
      rw [hsh, Nat.mod_eq_of_lt hlt,
        ← Nat.mul_add_lt_is_or (show v % 128 < 2 ^ 7 by omega) (v / 128), hmul]

/-- A value below `128^(k+1)` encodes in at most `k + 1` bytes. -/
lemma encodeVarint_length (k : Nat) : ∀ v : Nat, v < 128 ^ (k + 1) →
    (encodeVarint v).length ≤ k + 1 := by
  induction k with
  | zero =>
    intro v hv
    rw [encodeVarint, if_pos (by simpa using hv)]
    simp
  | succ k ihk =>
    intro v hv
    by_cases h : v < 128
    · rw [encodeVarint, if_pos h]; simp
    · rw [encodeVarint, if_neg h]
      simp only [List.length_cons]
      have hd : v / 128 < 128 ^ (k + 1) := by
        rw [Nat.div_lt_iff_lt_mul (by omega)]
        calc v < 128 ^ (k + 1 + 1) := hv
          _ = 128 ^ (k + 1) * 128 := by rw [pow_succ]
      have := ihk (v / 128) hd
      omega

/-- The reading loop fails on any stream whose first ten bytes contain no
terminator: either the stream runs dry (`eof`) or an 11th byte is read
(`varintTooLong`). -/
lemma readVarintLoop_reject : ∀ (bs : List Nat) (count : Nat) (acc : List Nat),
    count ≤ 10 → (∀ b ∈ bs.take (10 - count), b &&& 128 ≠ 128) →
    ∃ e, readVarintLoop count bs acc = .error e := by
  intro bs
  induction bs with
  | nil => exact fun count acc _ _ => ⟨.eof, rfl⟩
  | cons b rest ihb =>
    intro count acc hc hall
    rw [readVarintLoop]
    by_cases h10 : count = 10
    · rw [if_pos h10]; exact ⟨.varintTooLong, rfl⟩
    · rw [if_neg h10]
      obtain ⟨n, hn⟩ : ∃ n, 10 - count = n + 1 := ⟨10 - count - 1, by omega⟩
      have hb : b &&& 128 ≠ 128 := hall b (by simp [hn])
      rw [if_neg hb]
      refine ihb (count + 1) (acc ++ [b]) (by omega) ?_
      intro x hx
      refine hall x ?_
      rw [hn]
      simp only [List.take_succ_cons, List.mem_cons]
      right
      have hn' : 10 - (count + 1) = n := by omega
      rw [hn'] at hx
      exact hx

/-- `read_varint` consumes exactly an encoded varint and returns its
value. -/
lemma readVarint_encode (v : Nat) (rest : List Nat) (hv : v < 2 ^ 64) :
    readVarint (encodeVarint v ++ rest)
      = .ok (v, (encodeVarint v).length, rest) := by
  have hlen : (encodeVarint v).length ≤ 10 := by
    have h70 : v < 128 ^ 10 := lt_of_lt_of_le hv (by norm_num)
    exact encodeVarint_length 9 v h70
  rw [readVarint, readVarintLoop_encode v 0 [] rest (by omega)]
  simp [varintValue_encode v hv]

/-- C9: the varint codec round-trips.  For every `v < 2^64`, decoding the
little-endian base-128 encoding of `v` (high bit set only on the last byte,
least-significant 7 bits first) yields `v` and consumes exactly the
encoding; the encoding uses at most 10 bytes; and `read_varint` rejects any
stream whose terminator byte does not appear within 10 bytes. -/
theorem varint_roundtrip_C9 (v : Nat) (rest bs : List Nat) (hv : v < 2 ^ 64)
    (hbs : ∀ b ∈ bs.take 10, b &&& 128 ≠ 128) :
    readVarint (encodeVarint v ++ rest)
        = .ok (v, (encodeVarint v).length, rest)
      ∧ (encodeVarint v).length ≤ 10
      ∧ ∃ e, readVarint bs = .error e := by
  refine ⟨readVarint_encode v rest hv, ?_, ?_⟩
  · have h70 : v < 128 ^ 10 := lt_of_lt_of_le hv (by norm_num)
    exact encodeVarint_length 9 v h70
  · obtain ⟨e, he⟩ := readVarintLoop_reject bs 0 [] (by omega)
      (by simpa using hbs)
    exact ⟨e, by rw [readVarint, he]⟩

/-- Witness for C9 at `v = 2^63` (the spec's varint boundary scenario: a
10-byte encoding) and an 11-byte terminator-free stream. -/
theorem varint_roundtrip_C9_witness :
    readVarint (encodeVarint (2 ^ 63) ++ [])
        = .ok (2 ^ 63, (encodeVarint (2 ^ 63)).length, [])
      ∧ (encodeVarint (2 ^ 63)).length ≤ 10
      ∧ ∃ e, readVarint [0, 0, 0, 0, 0, 0, 0, 0, 0, 0, 0] = .error e :=
  varint_roundtrip_C9 (2 ^ 63) [] [0, 0, 0, 0, 0, 0, 0, 0, 0, 0, 0]
    (by decide) (by decide)

/-! ### Packet reader claims C8 and C10 -/

/-- An `FSync(End)` record: header byte, privilege byte, `target_ctx = 7`,
`target_address = 16`, `timestamp = 7` — five bytes in total. -/
def fsyncEndBytes : List Nat := [0x98, 0x80, 0x87, 0x90, 0x87]

/-- C8 (code bug): `read_packet` consumes all five bytes of this
`FSync(End)` record (the remaining stream is empty) yet reports only 4
bytes read.  The `FSync` branch reads the privilege byte without adding it
to `bytes_read`, contradicting the function's own header comment
`// returns the number of bytes read` (the `FTrap` branch does count it). -/
theorem readPacket_fsync_undercount_C8 :
    readPacket fsyncEndBytes Packet.new
        = .ok (4, { Packet.new with
                    func3 := .syncType .SyncEnd
                    target_ctx := 7
                    target_address := 16
                    timestamp := 7
                    f_header := .FSync }, [])
      ∧ fsyncEndBytes.length = 5 := by decide

/-- C10: a compressed record (`CTb`, `CNt`, `CIj`, i.e. a first byte whose
low two bits are nonzero) consumes exactly one byte and updates only
`is_compressed`, `c_header`, `f_header` and `timestamp`; `target_address`,
`from_address`, `target_prv`, `target_ctx`, `from_prv` and `func3` keep
whatever the reused packet buffer held before. -/
theorem readPacket_compressed_frame_C10 (b : Nat) (rest : List Nat)
    (packet : Packet) (hb : b &&& 3 ≠ 0) :
    ∃ packet', readPacket (b :: rest) packet = .ok (1, packet', rest)
      ∧ packet'.is_compressed = true
      ∧ packet'.timestamp = (b &&& 0b11111100) >>> 2
      ∧ packet'.target_address = packet.target_address
      ∧ packet'.from_address = packet.from_address
      ∧ packet'.target_prv = packet.target_prv
      ∧ packet'.target_ctx = packet.target_ctx
      ∧ packet'.from_prv = packet.from_prv
      ∧ packet'.func3 = packet.func3
      ∧ packet'.from_ctx = packet.from_ctx := by
  refine ⟨{ packet with
            timestamp := (b &&& 0b11111100) >>> 2
            f_header := FHeader.fromC (CHeader.fromVal (b &&& 3))
            c_header := CHeader.fromVal (b &&& 3)
            is_compressed := true },
    ?_, rfl, rfl, rfl, rfl, rfl, rfl, rfl, rfl, rfl⟩
  have h1 : b &&& 3 = 1 ∨ b &&& 3 = 2 ∨ b &&& 3 = 3 := by
    have h3 : b &&& 3 ≤ 3 := Nat.and_le_right
    omega
  rcases h1 with h | h | h <;>
    simp only [readPacket, readU8, h, CHeader.fromVal]

/-- A reused packet buffer with leftover field values. -/
def staleBuf : Packet :=
  { Packet.new with target_address := 42, target_ctx := 9 }

/-- Witness for C10: a `CTb` byte `0x05` read into `staleBuf`. -/
theorem readPacket_compressed_frame_C10_witness :
    ∃ packet', readPacket (5 :: [7]) staleBuf = .ok (1, packet', [7])
      ∧ packet'.is_compressed = true
      ∧ packet'.timestamp = (5 &&& 0b11111100) >>> 2
      ∧ packet'.target_address = staleBuf.target_address
      ∧ packet'.from_address = staleBuf.from_address
      ∧ packet'.target_prv = staleBuf.target_prv
      ∧ packet'.target_ctx = staleBuf.target_ctx
      ∧ packet'.from_prv = staleBuf.from_prv
      ∧ packet'.func3 = staleBuf.func3
      ∧ packet'.from_ctx = staleBuf.from_ctx :=
  readPacket_compressed_frame_C10 5 [7] staleBuf (by decide)

/-! ### Stack unwinder claims C4 and C5 -/

/-- Decomposition of the privilege pop loop: it removes a maximal prefix of
the reversed stack whose frames all differ from the target privilege, and
stops at the first frame carrying it (or at the bottom). -/
lemma popUntilPrvRev_spec (p : Prv) : ∀ (l acc : List Frame),
    ∃ d rem, popUntilPrvRev p l acc = (rem, acc ++ d)
      ∧ l = d ++ rem ∧ (∀ f ∈ d, f.prv ≠ p)
      ∧ (rem = [] ∨ ∃ f t, rem = f :: t ∧ f.prv = p) := by
  intro l
  induction l with
  | nil =>
    intro acc
    exact ⟨[], [], by simp [popUntilPrvRev], by simp, by simp, Or.inl rfl⟩
  | cons f t iht =>
    intro acc
    by_cases hf : f.prv = p
    · exact ⟨[], f :: t, by simp [popUntilPrvRev, hf], by simp, by simp,
        Or.inr ⟨f, t, rfl, hf⟩⟩
    · obtain ⟨d, rem, h1, h2, h3, h4⟩ := iht (acc ++ [f])
      refine ⟨f :: d, rem, ?_, by simp [h2], ?_, h4⟩
      · rw [popUntilPrvRev, if_neg hf, h1]; simp
      · intro x hx
        rcases List.mem_cons.mp hx with hx | hx
        · exact hx ▸ hf
        · exact h3 x hx

/-- The range pop loop preserves the total number of frames. -/
lemma popUntilRangeRev_len (symIdx : SymbolIndex) (p : Prv) (target : Nat) :
    ∀ (l acc rem closed : List Frame),
    popUntilRangeRev symIdx p target l acc = some (rem, closed) →
    rem.length + closed.length = l.length + acc.length := by
  intro l
  induction l with
  | nil =>
    intro acc rem closed h
    simp only [popUntilRangeRev, Option.some.injEq, Prod.mk.injEq] at h
    obtain ⟨h1, h2⟩ := h
    subst h1; subst h2
    simp
  | cons f t iht =>
    intro acc rem closed h
    rw [popUntilRangeRev] at h
    rcases hr : symIdx.range p f.addr with _ | ⟨start, stop⟩
    · rw [hr] at h; exact absurd h (by simp)
    · rw [hr] at h
      dsimp only at h
      by_cases hin : start ≤ target ∧ stop > target
      · rw [if_pos hin] at h
        simp only [Option.some.injEq, Prod.mk.injEq] at h
        obtain ⟨h1, h2⟩ := h
        subst h1; subst h2
        simp
      · rw [if_neg hin] at h
        have := iht (acc ++ [f]) rem closed h
        simp at this ⊢
        omega

/-- C4 (amended): a `Trap` event with reason `Return` pops frames until the
top frame's privilege equals `curr_prv` (stopping early if the stack
empties) — and leaves `curr_prv` unchanged: the `Return` arm of `step_trap`
never assigns `prv_arc.1` (or anything else) to `curr_prv`. -/
theorem step_trap_return_C4 (st : StackUnwinder) (prv_arc : Prv × Prv)
    (to_addr : Nat) :
    ∃ st' r, st.step_trap .Return prv_arc to_addr = (st', some r)
      ∧ st'.curr_prv = st.curr_prv
      ∧ r.frames_opened = []
      ∧ st.frame_stack = st'.frame_stack ++ r.frames_closed.reverse
      ∧ (∀ f ∈ r.frames_closed, f.prv ≠ st.curr_prv)
      ∧ (st'.frame_stack = [] ∨
          ∃ f, st'.frame_stack.getLast? = some f ∧ f.prv = st.curr_prv) := by
  obtain ⟨d, rem, h1, h2, h3, h4⟩ :=
    popUntilPrvRev_spec st.curr_prv st.frame_stack.reverse []
  simp only [List.nil_append] at h1
  have hstep : st.step_trap .Return prv_arc to_addr
      = ({ st with frame_stack := rem.reverse },
         some ⟨rem.reverse.length, [], d⟩) := by
    rw [StackUnwinder.step_trap, h1]
  refine ⟨_, _, hstep, rfl, rfl, ?_, ?_, ?_⟩
  · have hst : st.frame_stack = rem.reverse ++ d.reverse := by
      calc st.frame_stack = st.frame_stack.reverse.reverse := by simp
        _ = (d ++ rem).reverse := by rw [h2]
        _ = rem.reverse ++ d.reverse := by simp
    simpa using hst
  · exact h3
  · rcases h4 with h4 | ⟨f, t, hrem, hf⟩
    · left; simp [h4]
    · right
      exact ⟨f, by simp [hrem], hf⟩

/-- A symbol index with no symbols at all. -/
def trivSym : SymbolIndex := ⟨fun _ _ => Option.none, fun _ _ => Option.none⟩

/-- A supervisor frame for the concrete unwinder states. -/
def sFrame : Frame :=
  ⟨.PrvSupervisor, ⟨"handler", ⟨"", 0, .PrvSupervisor⟩, .PrvSupervisor, 0⟩,
   0x2000⟩

/-- An unwinder holding one supervisor frame at `curr_prv = Supervisor`. -/
def cUnwinder : StackUnwinder := ⟨trivSym, [sFrame], .PrvSupervisor⟩

/-- C4 (counterexample): after `step_trap` on a `Return` with
`prv_arc = (Supervisor, User)`, `curr_prv` is still `Supervisor` — not
`prv_arc.1 = User` as the claim states. -/
theorem step_trap_return_C4_cex :
    (cUnwinder.step_trap .Return (.PrvSupervisor, .PrvUser) 0x3000).1.curr_prv
        = .PrvSupervisor
      ∧ Prv.PrvSupervisor ≠ Prv.PrvUser := ⟨rfl, by decide⟩

/-- Witness for C4 at the concrete one-frame unwinder. -/
theorem step_trap_return_C4_witness :
    ∃ st' r, cUnwinder.step_trap .Return (.PrvSupervisor, .PrvUser) 0x3000
        = (st', some r)
      ∧ st'.curr_prv = cUnwinder.curr_prv
      ∧ r.frames_opened = []
      ∧ cUnwinder.frame_stack = st'.frame_stack ++ r.frames_closed.reverse
      ∧ (∀ f ∈ r.frames_closed, f.prv ≠ cUnwinder.curr_prv)
      ∧ (st'.frame_stack = [] ∨
          ∃ f, st'.frame_stack.getLast? = some f
            ∧ f.prv = cUnwinder.curr_prv) :=
  step_trap_return_C4 cUnwinder (.PrvSupervisor, .PrvUser) 0x3000

/-- C5 (amended): every `step` balances the books — the new depth plus the
closed frames equals the old depth plus the opened frames, so the depth is a
natural number that never underflows (each pop is guarded by a nonempty
check).  `flush` reports every remaining frame as closed but returns the
unwinder unchanged: the depth after `flush` equals the depth before, not
zero. -/
theorem unwinder_depth_flush_C5 :
    (∀ (st : StackUnwinder) (e : Entry) (st' : StackUnwinder)
        (upd : Option StackUpdateResult),
      st.step e = some (st', upd) →
      st'.frame_stack.length + (upd.elim 0 fun r => r.frames_closed.length)
        = st.frame_stack.length
          + (upd.elim 0 fun r => r.frames_opened.length))
    ∧ ∀ st : StackUnwinder,
        st.flush = (st, some ⟨st.frame_stack.length, [], st.frame_stack⟩) := by
  constructor
  · intro st e st' upd h
    match e with
    | .instruction _ _ =>
      simp only [StackUnwinder.step, Option.some.injEq, Prod.mk.injEq] at h
      obtain ⟨h1, h2⟩ := h
      subst h1; subst h2; simp
    | .event ts kind =>
      match kind with
      | .SyncStart _ _ sp _ =>
        simp only [StackUnwinder.step, StackUnwinder.step_sync_start,
          Option.some.injEq, Prod.mk.injEq] at h
        obtain ⟨h1, h2⟩ := h
        subst h1; subst h2; simp
      | .InferrableJump arc =>
        simp only [StackUnwinder.step, StackUnwinder.step_ij,
          StackUnwinder.push_frame] at h
        rcases hg : st.func_symbol_map.get st.curr_prv arc.2 with _ | sym
        · rw [hg] at h
          simp only [Option.some.injEq, Prod.mk.injEq] at h
          obtain ⟨h1, h2⟩ := h
          subst h1; subst h2; simp
        · rw [hg] at h
          simp only [Option.some.injEq, Prod.mk.injEq] at h
          obtain ⟨h1, h2⟩ := h
          subst h1; subst h2; simp
      | .UninferableJump arc =>
        simp only [StackUnwinder.step, StackUnwinder.step_uj] at h
        rcases hg : st.func_symbol_map.get st.curr_prv arc.2 with _ | sym
        · rw [hg] at h
          rcases hp : popUntilRangeRev st.func_symbol_map st.curr_prv arc.2
              st.frame_stack.reverse [] with _ | ⟨rem, closed⟩
          · rw [hp] at h; exact absurd h (by simp)
          · rw [hp] at h
            simp only [Option.some.injEq, Prod.mk.injEq] at h
            obtain ⟨h1, h2⟩ := h
            subst h1; subst h2
            have := popUntilRangeRev_len st.func_symbol_map st.curr_prv arc.2
              st.frame_stack.reverse [] rem closed hp
            simp at this ⊢
            omega
        · rw [hg] at h
          simp only [Option.some.injEq, Prod.mk.injEq] at h
          obtain ⟨h1, h2⟩ := h
          subst h1; subst h2; simp
      | .Trap reason prv_arc arc ctx =>
        match reason with
        | .Exception | .Interrupt =>
          simp only [StackUnwinder.step, StackUnwinder.step_trap,
            StackUnwinder.push_frame] at h
          rcases hg : st.func_symbol_map.get prv_arc.2 arc.2 with _ | sym
          · rw [hg] at h
            simp only [Option.some.injEq, Prod.mk.injEq] at h
            obtain ⟨h1, h2⟩ := h
            subst h1; subst h2; simp
          · rw [hg] at h
            simp only [Option.some.injEq, Prod.mk.injEq] at h
            obtain ⟨h1, h2⟩ := h
            subst h1; subst h2; simp
        | .Return =>
          obtain ⟨d, rem, h1, h2, h3, h4⟩ :=
            popUntilPrvRev_spec st.curr_prv st.frame_stack.reverse []
          simp only [List.nil_append] at h1
          simp only [StackUnwinder.step, StackUnwinder.step_trap, h1,
            Option.some.injEq, Prod.mk.injEq] at h
          obtain ⟨ha, hb⟩ := h
          subst ha; subst hb
          have : st.frame_stack.reverse.length = (d ++ rem).length := by
            rw [h2]
          simp at this ⊢
          omega
      | .SyncEnd _ | .SyncPeriodic | .BPHit _ | .BPMiss | .Panic
      | .TakenBranch _ | .NonTakenBranch _ =>
        simp only [StackUnwinder.step, Option.some.injEq, Prod.mk.injEq] at h
        obtain ⟨h1, h2⟩ := h
        subst h1; subst h2
        simp
  · intro st
    rfl

/-- Witness for C5: the conservation equation at a concrete `Return` step on
the one-frame unwinder, and `flush` on the same unwinder. -/
theorem unwinder_depth_flush_C5_witness :
    ((1 : Nat) + 0 = 1 + 0)
      ∧ cUnwinder.flush = (cUnwinder, some ⟨1, [], [sFrame]⟩) := by
  constructor
  · have h := unwinder_depth_flush_C5.1 cUnwinder
      (.event 7 (.Trap .Return (.PrvSupervisor, .PrvUser) (0, 0x3000)
        Option.none))
      cUnwinder (some ⟨1, [], []⟩) rfl
    exact h
  · exact unwinder_depth_flush_C5.2 cUnwinder

/-- C5 (counterexample): `flush` on the one-frame unwinder leaves the depth
at 1, not 0 — `flush` never clears `frame_stack`. -/
theorem flush_depth_C5_cex :
    (cUnwinder.flush).1.frame_stack.length = 1 ∧ (1 : Nat) ≠ 0 :=
  ⟨rfl, by decide⟩

/-! ### Decoder claims C2, C6, C7 -/

/-- `InstructionIndex::get` always yields a map for user privilege (an
unknown ASID falls back to the empty map). -/
lemma InstructionIndex.get?_user (idx : InstructionIndex) (ctx : Nat) :
    ∃ m, idx.get? .PrvUser ctx = some m := by
  rw [InstructionIndex.get?]
  rcases h : idx.u_insn_maps ctx with _ | m <;> simp [h]

/-- C2 (amended): a Trap packet with `trap_type = Return` and
`target_prv = User` sets `u_unknown_ctx` exactly when `target_ctx` is not
among the configured ASIDs (clearing it and installing the ctx when it is) —
but the emitted Trap event carries `ctx = Some(target_ctx)` in both cases:
`decode_trace` calls `trap_with_ctx` unconditionally whenever
`report_ctx` holds, and uses the ctx-less constructor only for other
traps. -/
theorem trap_return_ctx_C2 (sfuel : Nat) (static_cfg : DecoderStaticCfg)
    (insn_index : InstructionIndex) (br_mode : BrMode) (packet : Packet)
    (st : DecState)
    (hf : packet.f_header = .FTrap)
    (ht : packet.func3 = .trapType .TReturn)
    (hp : packet.target_prv = .PrvUser)
    (hu : st.u_unknown_ctx = true)
    (hprv : st.prv = .PrvUser) :
    ∃ st', decode_step sfuel static_cfg insn_index br_mode packet st
        = .cont [.event ((st.timestamp + packet.timestamp) % U64MOD)
            (.Trap .Return (.PrvUser, .PrvUser)
              (pcGetAddr (refund_addr packet.from_address),
               pcGetAddr (pcComputeFromXoredTarget
                 (refund_addr packet.from_address) packet.target_address))
              (some packet.target_ctx))] st'
      ∧ st'.u_unknown_ctx = !find_ctx packet.target_ctx static_cfg
      ∧ st'.ctx = (if find_ctx packet.target_ctx static_cfg
                   then packet.target_ctx else st.ctx)
      ∧ st'.prv = .PrvUser
      ∧ st'.timestamp = st.timestamp + packet.timestamp := by
  obtain ⟨m, hm⟩ := insn_index.get?_user st.ctx
  refine ⟨{ st with
      pc := pcComputeFromXoredTarget (refund_addr packet.from_address)
        packet.target_address
      timestamp := st.timestamp + packet.timestamp
      prv := packet.target_prv
      ctx := if find_ctx packet.target_ctx static_cfg then packet.target_ctx
             else st.ctx
      u_unknown_ctx := !find_ctx packet.target_ctx static_cfg
      cache := if find_ctx packet.target_ctx static_cfg ∧
          st.ctx ≠ packet.target_ctx then [] else st.cache },
    ?_, by simp, by simp, by simp [hp], by simp⟩
  rw [decode_step]
  simp only [hm, hf, ht, hp, hu, hprv, TrapReason.fromType]
  norm_num
  exact fun hcon => nomatch hcon

/-- The decoded form of the `trapRetBytes` record: a `Return` to user ASID
99. -/
def retPacket : Packet := { Packet.new with
  f_header := .FTrap
  func3 := .trapType .TReturn
  target_prv := .PrvUser
  from_prv := .PrvSupervisor
  target_ctx := 99
  from_address := 0x800
  target_address := 0x1800
  timestamp := 7 }

/-- A decoder state in user mode with `u_unknown_ctx` already set. -/
def uSt : DecState :=
  ⟨0x2000, 0, .PrvUser, 7, true, [], BpDoubleSaturatingCounter.new 0⟩

/-- Witness for C2 at the concrete `Return`-to-ASID-99 packet. -/
theorem trap_return_ctx_C2_witness :
    ∃ st', decode_step 100 fixCfg fixIdx .BrTarget retPacket uSt
        = .cont [.event ((uSt.timestamp + retPacket.timestamp) % U64MOD)
            (.Trap .Return (.PrvUser, .PrvUser)
              (pcGetAddr (refund_addr retPacket.from_address),
               pcGetAddr (pcComputeFromXoredTarget
                 (refund_addr retPacket.from_address)
                 retPacket.target_address))
              (some retPacket.target_ctx))] st'
      ∧ st'.u_unknown_ctx = !find_ctx retPacket.target_ctx fixCfg
      ∧ st'.ctx = (if find_ctx retPacket.target_ctx fixCfg
                   then retPacket.target_ctx else uSt.ctx)
      ∧ st'.prv = .PrvUser
      ∧ st'.timestamp = uSt.timestamp + retPacket.timestamp :=
  trap_return_ctx_C2 100 fixCfg fixIdx .BrTarget retPacket uSt
    rfl rfl rfl rfl rfl

/-- C6 (amended): the unknown-context skip — add the delta to the running
timestamp, emit nothing — applies exactly to the packets handled by the
branch-target path: `FTb`/`FNt`/`FIj`/`FUj` in `BrTarget` mode and
`FIj`/`FUj` in `BrPredict` mode.  (Predict-mode `FTb`/`FNt` and
`FTrap`/`FSync` packets are processed even while `u_unknown_ctx ∧
prv = User` holds.) -/
theorem unknown_ctx_skip_C6 (sfuel : Nat) (static_cfg : DecoderStaticCfg)
    (insn_index : InstructionIndex) (br_mode : BrMode) (packet : Packet)
    (st : DecState)
    (hf : packet.f_header = .FTb ∨ packet.f_header = .FNt
        ∨ packet.f_header = .FIj ∨ packet.f_header = .FUj)
    (hmode : br_mode = .BrPredict →
        packet.f_header = .FIj ∨ packet.f_header = .FUj)
    (hu : st.u_unknown_ctx = true)
    (hprv : st.prv = .PrvUser) :
    decode_step sfuel static_cfg insn_index br_mode packet st
      = .cont [] { st with timestamp := st.timestamp + packet.timestamp } := by
  obtain ⟨m, hm⟩ := insn_index.get?_user st.ctx
  rw [decode_step]
  cases br_mode with
  | BrTarget =>
    rcases hf with hf | hf | hf | hf <;>
      simp [hm, hf, hu, hprv]
  | BrPredict =>
    rcases hmode rfl with hf | hf <;>
      simp [hm, hf, hu, hprv]

/-- Witness for C6: a `FTb` packet with delta 3 in `BrTarget` mode while the
state is user mode with `u_unknown_ctx` set. -/
theorem unknown_ctx_skip_C6_witness :
    decode_step 100 fixCfg fixIdx .BrTarget
        { Packet.new with f_header := .FTb, timestamp := 3 } uSt
      = .cont [] { uSt with timestamp := uSt.timestamp + 3 } :=
  unknown_ctx_skip_C6 100 fixCfg fixIdx .BrTarget
    { Packet.new with f_header := .FTb, timestamp := 3 } uSt
    (Or.inl rfl) (fun hcon => nomatch hcon) rfl rfl

/-- C7 (amended): `decode_trace` treats every `read_packet` error that is a
`Result::Err` — a short read on the first byte, a short read mid-packet, or
an over-long varint alike — as end of stream: the loop breaks cleanly with
no event broadcast and no `Panic`.  (`Panic` events are broadcast only on
semantic desync inside packet processing, and the privilege-byte checksum
`assert!` aborts without one.) -/
theorem short_read_eos_C7 (sfuel : Nat) (static_cfg : DecoderStaticCfg)
    (insn_index : InstructionIndex) (br_mode : BrMode) (fuel : Nat)
    (stream : List Nat) (packet : Packet) (st : DecState) (e : PErr)
    (hread : readPacket stream packet = .error e)
    (hres : e.isResult = true) :
    decode_loop sfuel static_cfg insn_index br_mode (fuel + 1) stream packet st
      = ([], .eos, st) := by
  rw [decode_loop, hread]
  simp [hres]

/-- Witness for C7: the mid-packet truncated `FUj` record `[0x0C, 0x01]`
(header byte read, varint cut off) stops the loop exactly like end of
stream. -/
theorem short_read_eos_C7_witness :
    decode_loop 100 fixCfg fixIdx .BrTarget 3 [0x0C, 0x01] Packet.new uSt
      = ([], .eos, uSt) :=
  short_read_eos_C7 100 fixCfg fixIdx .BrTarget 2 [0x0C, 0x01] Packet.new uSt
    .eof (by decide) (by decide)

/-! ### Decoder claim C1: the privilege arc of Trap events -/

/-- The entries a `StepOut` carries. -/
def StepOut.events : StepOut → List Entry
  | .cont evs _ => evs
  | .stop evs => evs
  | .crash evs _ => evs

/-- `true` when every `Trap` event in the list reports the same privilege in
both components of `prv_arc`. -/
def trapArcsDiagonal (l : List Entry) : Bool :=
  l.all fun e =>
    match e with
    | .event _ (.Trap _ prv_arc _ _) => prv_arc.1 == prv_arc.2
    | _ => true

lemma trapArcsDiagonal_append (a b : List Entry) :
    trapArcsDiagonal (a ++ b)
      = (trapArcsDiagonal a && trapArcsDiagonal b) := by
  simp [trapArcsDiagonal, List.all_append]

lemma predictLoop_diag (sfuel : Nat) (m : InsnMap) (mode : BrMode) :
    ∀ (n : Nat) (st : DecState) (evs : List Entry),
    trapArcsDiagonal evs = true →
    trapArcsDiagonal (predictLoop sfuel m mode n st evs).events = true := by
  intro n
  induction n with
  | zero => intro st evs h; exact h
  | succ n ihn =>
    intro st evs h
    rw [predictLoop]
    rcases step_bb sfuel (pcGetAddr st.pc) m mode st.cache with _ | ⟨np, c'⟩
    · exact h
    · dsimp only
      rcases m (pcGetAddr np) with _ | insn
      · exact h
      · by_cases hbr : insn.is_branch
        · simp only [hbr, Bool.not_true, Bool.false_eq_true, if_false]
          rcases st.bp.predict (pcGetAddr np) true with _ | ⟨taken, bp'⟩
          · exact h
          · dsimp only
            cases taken
            · simp only [Bool.false_eq_true, if_false]
              exact ihn _ _ (by
                simpa [trapArcsDiagonal_append, trapArcsDiagonal] using h)
            · simp only [if_true]
              exact ihn _ _ (by
                simpa [trapArcsDiagonal_append, trapArcsDiagonal] using h)
        · simp only [hbr, Bool.not_false, if_true]
          simpa [StepOut.events, trapArcsDiagonal_append, trapArcsDiagonal]
            using h

set_option maxHeartbeats 1000000 in
lemma decode_step_diag (sfuel : Nat) (cfg : DecoderStaticCfg)
    (idx : InstructionIndex) (mode : BrMode) (packet : Packet)
    (st : DecState) :
    trapArcsDiagonal (decode_step sfuel cfg idx mode packet st).events
      = true := by
  rw [decode_step]
  rcases idx.get? st.prv st.ctx with _ | curr
  · rfl
  · dsimp only
    by_cases hfs : packet.f_header = .FSync
    · rw [if_pos hfs]
      rcases step_bb_until curr (refund_addr packet.target_address) sfuel
          (pcGetAddr st.pc) with _ | np
      · rfl
      · rfl
    · rw [if_neg hfs]
      by_cases hft : packet.f_header = .FTrap
      · rw [if_pos hft]
        repeat' split <;> try rfl
        all_goals simp [StepOut.events, trapArcsDiagonal]
      · rw [if_neg hft]
        by_cases hp1 : mode = .BrPredict ∧ packet.f_header = .FTb
        · rw [if_pos hp1]
          exact predictLoop_diag sfuel curr mode packet.timestamp st _
            (by simp [trapArcsDiagonal])
        · rw [if_neg hp1]
          by_cases hp2 : mode = .BrPredict ∧ packet.f_header = .FNt
          · rw [if_pos hp2]
            try dsimp only
            rcases step_bb sfuel (pcGetAddr st.pc) curr mode st.cache with
              _ | ⟨np, c'⟩
            · simp [StepOut.events, trapArcsDiagonal]
            · dsimp only
              rcases curr (pcGetAddr np) with _ | insn
              · simp [StepOut.events, trapArcsDiagonal]
              · by_cases hbr : insn.is_branch
                · simp only [hbr, Bool.not_true, Bool.false_eq_true, if_false]
                  rcases st.bp.predict (pcGetAddr np) false with
                    _ | ⟨taken, bp'⟩
                  · simp [StepOut.events, trapArcsDiagonal]
                  · dsimp only
                    cases taken <;>
                      simp [StepOut.events, trapArcsDiagonal]
                · simp only [hbr, Bool.not_false, if_true]
                  simp [StepOut.events, trapArcsDiagonal]
          · rw [if_neg hp2]
            by_cases hsk : st.u_unknown_ctx ∧ st.prv = .PrvUser
            · rw [if_pos hsk]; rfl
            · rw [if_neg hsk]
              rcases step_bb sfuel (pcGetAddr st.pc) curr mode st.cache with
                _ | ⟨np, c'⟩
              · rfl
              · dsimp only
                rcases curr (pcGetAddr np) with _ | insn
                · rfl
                · cases packet.f_header
                  all_goals try dsimp only
                  all_goals repeat' split
                  all_goals simp [StepOut.events, trapArcsDiagonal]

lemma decode_loop_diag (sfuel : Nat) (cfg : DecoderStaticCfg)
    (idx : InstructionIndex) (mode : BrMode) :
    ∀ (fuel : Nat) (stream : List Nat) (packet : Packet) (st : DecState),
    trapArcsDiagonal
      (decode_loop sfuel cfg idx mode fuel stream packet st).1 = true := by
  intro fuel
  induction fuel with
  | zero => intro stream packet st; rfl
  | succ fuel ih =>
    intro stream packet st
    rw [decode_loop]
    rcases hr : readPacket stream packet with e | ⟨n, p', rest⟩
    · rfl
    · dsimp only
      have hstep := decode_step_diag sfuel cfg idx mode p' st
      rcases hso : decode_step sfuel cfg idx mode p' st with
        ⟨evs, st'⟩ | evs | ⟨evs, stC⟩
      · rw [hso] at hstep
        have htail := ih rest p' st'
        simp only [StepOut.events] at hstep
        simp only []
        simp [trapArcsDiagonal_append, hstep, htail]
      · rw [hso] at hstep
        simpa [StepOut.events] using hstep
      · rw [hso] at hstep
        simpa [StepOut.events] using hstep

/-- C1 (amended): in every event stream `decode_trace` puts out, every
`Trap` event's `prv_arc` has equal components — both carry the trap's
*target* privilege (`prv` is reassigned to `packet.target_prv` before the
event is constructed), so an Exception from User into Supervisor is
reported as `(Supervisor, Supervisor)` and the matching Return as
`(User, User)`; the pre-trap privilege never appears. -/
theorem trap_prv_arc_C1 (sfuel : Nat) (cfg : DecoderStaticCfg)
    (rtcfg : DecoderRuntimeCfg) (idx : InstructionIndex) (stream : List Nat)
    (evs : List Entry) (r : StopReason)
    (h : decode_trace sfuel cfg rtcfg idx stream = some (evs, r)) :
    trapArcsDiagonal evs = true := by
  rw [decode_trace] at h
  rcases hfp : readFirstPacket stream with e | ⟨fp, fcfg, rest⟩
  · rw [hfp] at h; exact absurd h (by simp)
  · rw [hfp] at h
    simp only [Option.some.injEq, Prod.mk.injEq] at h
    obtain ⟨h1, _⟩ := h
    have hloop := decode_loop_diag sfuel cfg idx rtcfg.br_mode
      (rest.length + 1) rest fp
      { pc := pcNew fp.target_address
        timestamp := fp.timestamp
        prv := fp.target_prv
        ctx := fp.target_ctx
        u_unknown_ctx := false
        cache := []
        bp := BpDoubleSaturatingCounter.new rtcfg.bp_entries }
    rw [← h1]
    simp [trapArcsDiagonal, hloop]
    have := hloop
    simp [trapArcsDiagonal] at this
    exact this

/-- Witness for C1: the diagonal property evaluated on the concrete
Exception trace. -/
theorem trap_prv_arc_C1_witness :
    trapArcsDiagonal
        [.event 0 (.SyncStart ⟨.BrTarget, 0⟩ 0x1000 .PrvUser 7),
         .event 7 (.Trap .Exception (.PrvSupervisor, .PrvSupervisor)
           (0x1000, 0x2000) Option.none)] = true :=
  trap_prv_arc_C1 100 fixCfg ⟨.BrTarget, 0⟩ fixIdx
    (startBytes ++ trapExcBytes) _ .eos (by decide)

/-! ### Decoder claim C3: monotonicity of carried timestamps -/

/-- The timestamp an entry carries when it is one of the kinds reporting the
decoder's running timestamp (`Trap`, the four branch/jump kinds, `BPMiss`).
`SyncStart`/`SyncEnd` carry the packet's own field, `BPHit` carries the hit
count and `Panic` carries 0, so they are excluded. -/
def carriedTimestamp : Entry → Option Nat
  | .event ts (.TakenBranch _) => some ts
  | .event ts (.NonTakenBranch _) => some ts
  | .event ts (.InferrableJump _) => some ts
  | .event ts (.UninferableJump _) => some ts
  | .event ts (.Trap _ _ _ _) => some ts
  | .event ts .BPMiss => some ts
  | _ => Option.none

/-- Fold a non-decreasing check over the carried timestamps starting from
`t`; `some m` means the carried values climb, ending at `m`. -/
def monoRun : Nat → List Entry → Option Nat
  | t, [] => some t
  | t, e :: rest =>
    match carriedTimestamp e with
    | some ts => if t ≤ ts then monoRun ts rest else Option.none
    | Option.none => monoRun t rest

lemma monoRun_append (t : Nat) (a b : List Entry) :
    monoRun t (a ++ b) = (monoRun t a).bind fun m => monoRun m b := by
  induction a generalizing t with
  | nil => simp [monoRun]
  | cons e a iha =>
    simp only [List.cons_append, monoRun]
    cases carriedTimestamp e with
    | none => exact iha t
    | some ts =>
      by_cases h : t ≤ ts
      · simp [h, iha]
      · simp [h]

lemma monoRun_le (t : Nat) (l : List Entry) (m : Nat)
    (h : monoRun t l = some m) : t ≤ m := by
  induction l generalizing t with
  | nil => simp [monoRun] at h; omega
  | cons e l ihl =>
    rw [monoRun] at h
    cases hc : carriedTimestamp e with
    | none => rw [hc] at h; dsimp only at h; exact ihl t h
    | some ts =>
      rw [hc] at h
      dsimp only at h
      by_cases ht : t ≤ ts
      · rw [if_pos ht] at h
        exact le_trans ht (ihl ts h)
      · rw [if_neg ht] at h
        exact absurd h (by simp)

lemma monoRun_lower (t' t : Nat) (l : List Entry) (m : Nat)
    (hle : t' ≤ t) (h : monoRun t l = some m) :
    ∃ m', monoRun t' l = some m' ∧ m' ≤ m := by
  induction l generalizing t t' with
  | nil =>
    simp only [monoRun, Option.some.injEq] at h ⊢
    exact ⟨t', rfl, by omega⟩
  | cons e l ihl =>
    rw [monoRun] at h ⊢
    cases hc : carriedTimestamp e with
    | none =>
      try rw [hc] at h
      try rw [hc]
      dsimp only at h ⊢
      exact ihl t' t hle h
    | some ts =>
      try rw [hc] at h
      try rw [hc]
      dsimp only at h ⊢
      by_cases ht : t ≤ ts
      · rw [if_pos ht] at h
        rw [if_pos (le_trans hle ht)]
        exact ⟨m, h, le_refl m⟩
      · rw [if_neg ht] at h
        exact absurd h (by simp)

lemma monoRun_single_uncarried {t : Nat} {e : Entry}
    (he : carriedTimestamp e = Option.none) : monoRun t [e] = some t := by
  rw [monoRun, he]; rfl

lemma monoRun_single_carried {t v : Nat} {e : Entry}
    (he : carriedTimestamp e = some v) (h : t ≤ v) :
    monoRun t [e] = some v := by
  rw [monoRun, he]
  dsimp only
  rw [if_pos h]
  rfl

lemma monoRun_snoc_uncarried (t : Nat) (l : List Entry) {e : Entry}
    (he : carriedTimestamp e = Option.none) :
    monoRun t (l ++ [e]) = monoRun t l := by
  rw [monoRun_append]
  cases monoRun t l with
  | none => rfl
  | some x => simpa using monoRun_single_uncarried he

lemma monoRun_snoc_carried {t x v : Nat} {l : List Entry} {e : Entry}
    (he : carriedTimestamp e = some v) (hl : monoRun t l = some x)
    (hx : x ≤ v) : monoRun t (l ++ [e]) = some v := by
  rw [monoRun_append, hl]
  simpa using monoRun_single_carried he hx

/-- The per-packet monotonicity invariant: the state timestamp never
decreases across the packet, and — while the reached timestamp is still a
valid `u64` — the carried timestamps of the entries emitted for the packet
climb from the old state timestamp to at most the new one. -/
def stepMonoOk (t : Nat) : StepOut → Prop
  | .cont evs st' => t ≤ st'.timestamp ∧ (st'.timestamp < U64MOD →
      ∃ m, monoRun t evs = some m ∧ m ≤ st'.timestamp)
  | .crash evs st' => t ≤ st'.timestamp ∧ (st'.timestamp < U64MOD →
      ∃ m, monoRun t evs = some m ∧ m ≤ st'.timestamp)
  | .stop evs => ∃ m, monoRun t evs = some m ∧ m ≤ t

lemma predictLoop_mono (sfuel : Nat) (m : InsnMap) (mode : BrMode)
    (t : Nat) : ∀ (n : Nat) (st : DecState) (evs : List Entry),
    t ≤ st.timestamp →
    (st.timestamp < U64MOD →
      ∃ x, monoRun t evs = some x ∧ x ≤ st.timestamp) →
    stepMonoOk t (predictLoop sfuel m mode n st evs) := by
  intro n
  induction n with
  | zero => intro st evs h1 h2; exact ⟨h1, h2⟩
  | succ n ihn =>
    intro st evs h1 h2
    rw [predictLoop]
    rcases step_bb sfuel (pcGetAddr st.pc) m mode st.cache with _ | ⟨np, c'⟩
    · exact ⟨h1, h2⟩
    · dsimp only
      rcases m (pcGetAddr np) with _ | insn
      · exact ⟨h1, h2⟩
      · by_cases hbr : insn.is_branch
        · simp only [hbr, Bool.not_true, Bool.false_eq_true, if_false]
          rcases st.bp.predict (pcGetAddr np) true with _ | ⟨taken, bp'⟩
          · exact ⟨h1, h2⟩
          · dsimp only
            have hext : ∀ (k : EventKind),
                carriedTimestamp
                  (.event (st.timestamp % U64MOD) k) = some (st.timestamp % U64MOD) →
                st.timestamp < U64MOD →
                ∃ x, monoRun t
                    (evs ++ [.event (st.timestamp % U64MOD) k]) = some x
                  ∧ x ≤ st.timestamp := by
              intro k hk hlt
              obtain ⟨x, hx, hxle⟩ := h2 hlt
              have hmod : st.timestamp % U64MOD = st.timestamp :=
                Nat.mod_eq_of_lt hlt
              refine ⟨st.timestamp % U64MOD, ?_, by omega⟩
              exact monoRun_snoc_carried hk hx (by omega)
            cases taken
            · simp only [Bool.false_eq_true, if_false]
              exact ihn _ _ h1 (hext _ rfl)
            · simp only [if_true]
              exact ihn _ _ h1 (hext _ rfl)
        · simp only [hbr, Bool.not_false, if_true]
          refine ⟨h1, fun hlt => ?_⟩
          obtain ⟨x, hx, hxle⟩ := h2 hlt
          refine ⟨x, ?_, hxle⟩
          rw [monoRun_snoc_uncarried t evs (e := .event 0 .Panic) rfl]
          exact hx

set_option maxHeartbeats 1000000 in
set_option linter.unnecessarySeqFocus false in
lemma decode_step_mono (sfuel : Nat) (cfg : DecoderStaticCfg)
    (idx : InstructionIndex) (mode : BrMode) (packet : Packet)
    (st : DecState) :
    stepMonoOk st.timestamp (decode_step sfuel cfg idx mode packet st) := by
  rw [decode_step]
  rcases idx.get? st.prv st.ctx with _ | curr
  · exact ⟨le_refl _, fun _ => ⟨_, rfl, le_refl _⟩⟩
  · dsimp only
    by_cases hfs : packet.f_header = .FSync
    · rw [if_pos hfs]
      rcases step_bb_until curr (refund_addr packet.target_address) sfuel
          (pcGetAddr st.pc) with _ | np
      · exact ⟨le_refl _, fun _ => ⟨_, rfl, le_refl _⟩⟩
      · exact ⟨_, monoRun_single_uncarried rfl, le_refl _⟩
    · rw [if_neg hfs]
      by_cases hft : packet.f_header = .FTrap
      · rw [if_pos hft]
        try dsimp only
        repeat' split
        all_goals
          first
            | exact ⟨le_refl _, fun _ => ⟨_, rfl, le_refl _⟩⟩
            | exact ⟨Nat.le_add_right _ _,
                fun _ => ⟨_, rfl, Nat.le_add_right _ _⟩⟩
            | (refine ⟨Nat.le_add_right _ _, fun hlt => ?_⟩
               have hlt2 : st.timestamp + packet.timestamp < U64MOD := hlt
               refine ⟨(st.timestamp + packet.timestamp) % U64MOD,
                 monoRun_single_carried rfl ?_, ?_⟩ <;>
                 rw [Nat.mod_eq_of_lt hlt2] <;>
                 first
                   | exact le_refl _
                   | exact Nat.le_add_right _ _)
      · rw [if_neg hft]
        by_cases hp1 : mode = .BrPredict ∧ packet.f_header = .FTb
        · rw [if_pos hp1]
          exact predictLoop_mono sfuel curr mode st.timestamp packet.timestamp
            st _ (le_refl _)
            (fun _ => ⟨st.timestamp,
              monoRun_single_uncarried
                (e := .event packet.timestamp (.BPHit packet.timestamp)) rfl,
              le_refl _⟩)
        · rw [if_neg hp1]
          by_cases hp2 : mode = .BrPredict ∧ packet.f_header = .FNt
          · rw [if_pos hp2]
            try dsimp only
            have hbase : ∀ x : Nat,
                st.timestamp + packet.timestamp < U64MOD →
                monoRun st.timestamp
                  [.event ((st.timestamp + packet.timestamp) % U64MOD)
                    .BPMiss]
                  = some ((st.timestamp + packet.timestamp) % U64MOD) := by
              intro x hlt
              exact monoRun_single_carried rfl
                (by rw [Nat.mod_eq_of_lt hlt]; omega)
            rcases step_bb sfuel (pcGetAddr st.pc) curr mode st.cache with
              _ | ⟨np, c'⟩
            · refine ⟨Nat.le_add_right _ _, fun hlt => ?_⟩
              have hlt2 : st.timestamp + packet.timestamp < U64MOD := hlt
              exact ⟨_, hbase 0 hlt2, by rw [Nat.mod_eq_of_lt hlt2]⟩
            · dsimp only
              rcases curr (pcGetAddr np) with _ | insn
              · refine ⟨Nat.le_add_right _ _, fun hlt => ?_⟩
                have hlt2 : st.timestamp + packet.timestamp < U64MOD := hlt
                exact ⟨_, hbase 0 hlt2, by rw [Nat.mod_eq_of_lt hlt2]⟩
              · by_cases hbr : insn.is_branch
                · simp only [hbr, Bool.not_true, Bool.false_eq_true, if_false]
                  rcases st.bp.predict (pcGetAddr np) false with
                    _ | ⟨taken, bp'⟩
                  · refine ⟨Nat.le_add_right _ _, fun hlt => ?_⟩
                    have hlt2 : st.timestamp + packet.timestamp < U64MOD
                      := hlt
                    exact ⟨_, hbase 0 hlt2, by rw [Nat.mod_eq_of_lt hlt2]⟩
                  · dsimp only
                    cases taken <;>
                      [skip; skip] <;>
                      · first
                          | simp only [Bool.not_false, if_true]
                          | simp only [Bool.not_true, Bool.false_eq_true,
                              if_false]
                        refine ⟨Nat.le_add_right _ _, fun hlt => ?_⟩
                        have hlt2 :
                            st.timestamp + packet.timestamp < U64MOD := hlt
                        refine ⟨(st.timestamp + packet.timestamp) % U64MOD,
                          monoRun_snoc_carried rfl (hbase 0 hlt2)
                            (le_refl _), ?_⟩
                        rw [Nat.mod_eq_of_lt hlt2]
                · simp only [hbr, Bool.not_false, if_true]
                  refine ⟨Nat.le_add_right _ _, fun hlt => ?_⟩
                  have hlt2 : st.timestamp + packet.timestamp < U64MOD := hlt
                  refine ⟨(st.timestamp + packet.timestamp) % U64MOD, ?_, ?_⟩
                  · rw [monoRun_snoc_uncarried _ _
                      (e := .event 0 .Panic) rfl]
                    exact hbase 0 hlt2
                  · rw [Nat.mod_eq_of_lt hlt2]
          · rw [if_neg hp2]
            by_cases hsk : st.u_unknown_ctx ∧ st.prv = .PrvUser
            · rw [if_pos hsk]
              exact ⟨Nat.le_add_right _ _,
                fun _ => ⟨_, rfl, Nat.le_add_right _ _⟩⟩
            · rw [if_neg hsk]
              rcases step_bb sfuel (pcGetAddr st.pc) curr mode st.cache with
                _ | ⟨np, c'⟩
              · exact ⟨le_refl _, fun _ => ⟨_, rfl, le_refl _⟩⟩
              · dsimp only
                rcases curr (pcGetAddr np) with _ | insn
                · exact ⟨le_refl _, fun _ => ⟨_, rfl, le_refl _⟩⟩
                · cases packet.f_header
                  all_goals try dsimp only
                  all_goals repeat' split
                  all_goals
                    first
                      | exact ⟨Nat.le_add_right _ _, fun _ =>
                          ⟨_, monoRun_single_uncarried
                            (e := .event 0 .Panic) rfl,
                           Nat.le_add_right _ _⟩⟩
                      | (refine ⟨Nat.le_add_right _ _, fun hlt => ?_⟩
                         have hlt2 : st.timestamp + packet.timestamp < U64MOD
                           := hlt
                         refine ⟨(st.timestamp + packet.timestamp) % U64MOD,
                           monoRun_single_carried rfl ?_, ?_⟩ <;>
                           rw [Nat.mod_eq_of_lt hlt2] <;>
                           first
                             | exact le_refl _
                             | exact Nat.le_add_right _ _)

lemma decode_loop_mono (sfuel : Nat) (cfg : DecoderStaticCfg)
    (idx : InstructionIndex) (mode : BrMode) :
    ∀ (fuel : Nat) (stream : List Nat) (packet : Packet) (st : DecState),
    st.timestamp
        ≤ (decode_loop sfuel cfg idx mode fuel stream packet st).2.2.timestamp
    ∧ ((decode_loop sfuel cfg idx mode fuel stream packet st).2.2.timestamp
          < U64MOD →
        ∃ m, monoRun st.timestamp
            (decode_loop sfuel cfg idx mode fuel stream packet st).1 = some m
          ∧ m ≤ (decode_loop sfuel cfg idx mode fuel stream
              packet st).2.2.timestamp) := by
  intro fuel
  induction fuel with
  | zero =>
    intro stream packet st
    exact ⟨le_refl _, fun _ => ⟨_, rfl, le_refl _⟩⟩
  | succ fuel ih =>
    intro stream packet st
    rw [decode_loop]
    rcases hr : readPacket stream packet with e | ⟨n, p', rest⟩
    · exact ⟨le_refl _, fun _ => ⟨_, rfl, le_refl _⟩⟩
    · dsimp only
      have hstep := decode_step_mono sfuel cfg idx mode p' st
      rcases hso : decode_step sfuel cfg idx mode p' st with
        ⟨evs, st'⟩ | evs | ⟨evs, stC⟩
      · rw [hso] at hstep
        obtain ⟨hst1, hst2⟩ := hstep
        obtain ⟨hih1, hih2⟩ := ih rest p' st'
        dsimp only
        refine ⟨le_trans hst1 hih1, fun hlt => ?_⟩
        have hlt' : st'.timestamp < U64MOD := lt_of_le_of_lt hih1 hlt
        obtain ⟨m₁, hm₁, hm₁le⟩ := hst2 hlt'
        obtain ⟨m₂, hm₂, hm₂le⟩ := hih2 hlt
        obtain ⟨m₃, hm₃, hm₃le⟩ :=
          monoRun_lower m₁ st'.timestamp _ m₂ hm₁le hm₂
        refine ⟨m₃, ?_, le_trans hm₃le hm₂le⟩
        rw [monoRun_append, hm₁]
        simpa using hm₃
      · rw [hso] at hstep
        exact ⟨le_refl _, fun _ =>
          ⟨_, (hstep.choose_spec.1 : monoRun st.timestamp evs = _),
           le_trans hstep.choose_spec.2 (le_refl _)⟩⟩
      · rw [hso] at hstep
        exact hstep

/-- C3 (amended): within a decoder run, the timestamps carried by `Trap`,
`TakenBranch`, `NonTakenBranch`, `InferrableJump`, `UninferableJump` and
`BPMiss` events — the kinds that report the running timestamp — are
monotonically non-decreasing, provided the running 64-bit timestamp never
wraps (the final accumulated value is below `2^64`).  `BPHit` carries the
predicted-hit count, `Panic` carries 0 and `SyncEnd` carries the packet's
raw delta, so the claim's inclusion of `BPHit` and `Panic` fails. -/
theorem timestamp_mono_C3 (sfuel : Nat) (cfg : DecoderStaticCfg)
    (idx : InstructionIndex) (mode : BrMode) (fuel : Nat) (stream : List Nat)
    (packet : Packet) (st : DecState)
    (hnw : (decode_loop sfuel cfg idx mode fuel stream
        packet st).2.2.timestamp < 2 ^ 64) :
    ∃ m, monoRun st.timestamp
        (decode_loop sfuel cfg idx mode fuel stream packet st).1 = some m := by
  obtain ⟨m, hm, _⟩ :=
    (decode_loop_mono sfuel cfg idx mode fuel stream packet st).2 hnw
  exact ⟨m, hm⟩

/-- Witness for C3: the concrete Exception trace from a known-context user
state; the final timestamp is 7 and the single carried event climbs from
0 to 7. -/
theorem timestamp_mono_C3_witness :
    ∃ m, monoRun
        (⟨0x1000, 0, .PrvUser, 7, false, [],
          BpDoubleSaturatingCounter.new 0⟩ : DecState).timestamp
        (decode_loop 100 fixCfg fixIdx .BrTarget 8 trapExcBytes Packet.new
          ⟨0x1000, 0, .PrvUser, 7, false, [],
           BpDoubleSaturatingCounter.new 0⟩).1 = some m :=
  timestamp_mono_C3 100 fixCfg fixIdx .BrTarget 8 trapExcBytes Packet.new
    ⟨0x1000, 0, .PrvUser, 7, false, [], BpDoubleSaturatingCounter.new 0⟩
    (by decide)

end Tacit
